import Mathlib

/-!
The ipvlan driver state, `daemon/libnetwork/drivers/ipvlan/ipvlan_state.go`, and the
embedded DNS resolver of `daemon/libnetwork`.

A shallow embedding of the network registry kept by the ipvlan driver and of the
endpoint registry kept by each network, then a model of the resolver, followed by the
properties the specification states about them.

Conventions of the embedding

* A Go `map[string]V` is a `GoMap V`: a list of entries with pairwise distinct keys.
  Go leaves the iteration order of a map unspecified; the embedding iterates in entry
  order and the theorems below only speak about membership, length and the
  key-by-key content of an iteration, never about a particular order.
* A Go pointer `*T` is an `Option T`: `none` is `nil`, `some x` points at `x`.
* A Go `error` is an `Option GoError`: `none` is the `nil` error.
* `d.Lock()` / `d.Unlock()` bracket every method body; each method is embedded as the
  state transition performed between the two.
-/

/-! ## Go maps -/

/-- Association-list primitives under a Go map. -/
def GoMap.lookupL {V : Type} (k : String) : List (String × V) → Option V
  | [] => none
  | (k', v) :: rest => if k' = k then some v else GoMap.lookupL k rest

/-- Drop every entry stored under `k`. -/
def GoMap.eraseL {V : Type} (k : String) (l : List (String × V)) : List (String × V) :=
  l.filter (fun e => decide (e.1 ≠ k))

/-- Go `map[string]V`: finitely many entries, at most one per key. -/
structure GoMap (V : Type) where
  entries : List (String × V)
  nodup : (entries.map Prod.fst).Nodup

namespace GoMap

variable {V : Type}

instance [DecidableEq V] : DecidableEq (GoMap V) := fun a b =>
  match a, b with
  | ⟨ea, _⟩, ⟨eb, _⟩ =>
    if h : ea = eb then isTrue (by subst h; rfl)
    else isFalse (fun hab => h (congrArg GoMap.entries hab))

/-- The empty map, `map[string]V{}`. -/
def empty : GoMap V := ⟨[], List.nodup_nil⟩

/-- Keys of the map, in iteration order. -/
def keys (m : GoMap V) : List String := m.entries.map Prod.fst

/-- Values of the map, in iteration order (`for _, v := range m`). -/
def values (m : GoMap V) : List V := m.entries.map Prod.snd

/-- Go `len(m)`. -/
def len (m : GoMap V) : Nat := m.entries.length

/-- Go `v, ok := m[k]`: `some v` when `ok`, `none` otherwise. -/
def get? (m : GoMap V) (k : String) : Option V := lookupL k m.entries

/-- Go `m[k] = v`. -/
def set (m : GoMap V) (k : String) (v : V) : GoMap V :=
  ⟨(k, v) :: eraseL k m.entries,
   List.nodup_cons.2
    ⟨by simp [eraseL, List.mem_map, List.mem_filter],
     m.nodup.sublist ((List.filter_sublist m.entries).map Prod.fst)⟩⟩

/-- Go `delete(m, k)`. -/
def delete (m : GoMap V) (k : String) : GoMap V :=
  ⟨eraseL k m.entries, m.nodup.sublist ((List.filter_sublist m.entries).map Prod.fst)⟩

end GoMap

/-! ## Errors -/

/-- Modelled from the spec: the error classes of `daemon/libnetwork/types` (a package of this
repository that is not among the sources). The spec names two classes, InvalidParameter and
NotFound, and keeps them distinct; an error built by `fmt.Errorf` or `errors.New` carries no
class. -/
inductive ErrorClass where
  | InvalidParameter
  | NotFound
  | unclassified
  deriving DecidableEq, Repr

/-- A non-nil Go `error`: its class and its message. -/
structure GoError where
  cls : ErrorClass
  msg : String
  deriving DecidableEq, Repr

/-- Modelled from the spec: `types.InvalidParameterErrorf`, whose result is of the
InvalidParameter class (the message is passed already formatted). -/
def types.InvalidParameterErrorf (msg : String) : GoError := ⟨ErrorClass.InvalidParameter, msg⟩

/-- Modelled from the spec: `types.NotFoundErrorf`, whose result is of the NotFound class
(the message is passed already formatted). -/
def types.NotFoundErrorf (msg : String) : GoError := ⟨ErrorClass.NotFound, msg⟩

/-- Go `fmt.Errorf` (message already formatted): an error of no class. -/
def fmt.Errorf (msg : String) : GoError := ⟨ErrorClass.unclassified, msg⟩

/-- Go `errors.New`: an error of no class. -/
def errors.New (msg : String) : GoError := ⟨ErrorClass.unclassified, msg⟩

namespace ipvlan

/-! ## Data model -/

/-- Modelled from the spec: the `endpoint` struct (declared outside the sources). The code
reads only `id`; the spec adds the back-reference to the network and the assigned addresses. -/
structure endpoint where
  id : String
  nid : String
  addr : String
  addrv6 : String
  deriving DecidableEq, Repr

/-- Type `endpointTable`, `map[string]*endpoint`. -/
abbrev endpointTable := GoMap (Option endpoint)

/-- Modelled from the spec: the `network` struct (declared outside the sources). The code
reads `id` and `endpoints`; the spec adds the driver name. The embedded mutex has no state
of its own in a sequential run. -/
structure network where
  id : String
  endpoints : endpointTable
  driverName : String
  deriving DecidableEq

/-- Type `networkTable`, `map[string]*network`. -/
abbrev networkTable := GoMap (Option network)

/-- Modelled from the spec: the `driver` struct (declared outside the sources); the code
reads and writes only `networks`. -/
structure driver where
  networks : networkTable
  deriving DecidableEq

/-! ## Network registry -/

/-- Method `(d *driver) network(nid)`: the pointer stored under `nid` (nil when absent),
together with the error lines logged by the call. -/
def driver.network (d : driver) (nid : String) : Option ipvlan.network × List String :=
  match d.networks.get? nid with
  | some n => (n, [])
  | none => (none, ["network id " ++ nid ++ " not found"])

/-- Method `(d *driver) addNetwork(n)`: `d.networks[n.id] = n`. The receiver of `n.id`
is a non-nil pointer, so `n` is taken as the pointee. -/
def driver.addNetwork (d : driver) (n : ipvlan.network) : driver :=
  { d with networks := d.networks.set n.id (some n) }

/-- Method `(d *driver) deleteNetwork(nid)`: `delete(d.networks, nid)`. -/
def driver.deleteNetwork (d : driver) (nid : String) : driver :=
  { d with networks := d.networks.delete nid }

/-- Method `(d *driver) getNetworks()`: a fresh slice of capacity `len(d.networks)`,
appended to once per map entry. -/
def driver.getNetworks (d : driver) : List (Option ipvlan.network) :=
  d.networks.entries.foldl (fun ls e => ls ++ [e.2]) []

/-- Method `(d *driver) getNetwork(id)`. -/
def driver.getNetwork (d : driver) (id : String) : Option ipvlan.network × Option GoError :=
  if id = "" then
    (none, some (types.InvalidParameterErrorf ("invalid network id: " ++ id)))
  else
    match d.networks.get? id with
    | some nw => (nw, none)
    | none => (none, some (types.NotFoundErrorf ("network not found: " ++ id)))

/-! ## Endpoint registry -/

/-- Method `(n *network) endpoint(eid)`: `n.endpoints[eid]`, nil when absent. -/
def network.endpoint (n : network) (eid : String) : Option ipvlan.endpoint :=
  match n.endpoints.get? eid with
  | some ep => ep
  | none => none

/-- Method `(n *network) addEndpoint(ep)`: `n.endpoints[ep.id] = ep`. -/
def network.addEndpoint (n : network) (ep : ipvlan.endpoint) : network :=
  { n with endpoints := n.endpoints.set ep.id (some ep) }

/-- Method `(n *network) deleteEndpoint(eid)`: `delete(n.endpoints, eid)`. -/
def network.deleteEndpoint (n : network) (eid : String) : network :=
  { n with endpoints := n.endpoints.delete eid }

/-- Method `(n *network) getEndpoint(eid)`. -/
def network.getEndpoint (n : network) (eid : String) : Option ipvlan.endpoint × Option GoError :=
  if eid = "" then
    (none, some (fmt.Errorf ("endpoint id " ++ eid ++ " not found")))
  else
    match n.endpoints.get? eid with
    | some ep => (ep, none)
    | none => (none, none)

/-- Function `validateID(nid, eid)`. -/
def validateID (nid eid : String) : Option GoError :=
  if nid = "" then some (errors.New "invalid network id")
  else if eid = "" then some (errors.New "invalid endpoint id")
  else none

/-! ## Slices handed out by `getNetworks` -/

/-- The part of the Go heap the registry calls touch: the driver object and the backing
arrays of the slices `getNetworks` has allocated, addressed by allocation number. -/
structure Heap where
  drv : driver
  slices : List (List (Option network))

/-- The call `d.getNetworks()` run on the heap: `make` allocates a new backing array, the
loop fills it from the map, and the slice (its address) is returned. -/
def Heap.getNetworks (h : Heap) : Nat × Heap :=
  (h.slices.length, { h with slices := h.slices ++ [h.drv.getNetworks] })

/-- The call `d.addNetwork(n)` run on the heap: only the driver's map is written. -/
def Heap.addNetwork (h : Heap) (n : network) : Heap :=
  { h with drv := h.drv.addNetwork n }

/-- The call `d.deleteNetwork(nid)` run on the heap: only the driver's map is written. -/
def Heap.deleteNetwork (h : Heap) (nid : String) : Heap :=
  { h with drv := h.drv.deleteNetwork nid }

/-- Content of the slice at address `p`. -/
def Heap.slice (h : Heap) (p : Nat) : Option (List (Option network)) :=
  h.slices[p]?

/-! ## Runs of state-changing registry calls -/

/-- A state-changing call on the network registry. -/
inductive registryCall where
  | add (n : network)
  | del (nid : String)

/-- One call applied to the driver. -/
def driver.call (d : driver) : registryCall → driver
  | registryCall.add n => d.addNetwork n
  | registryCall.del nid => d.deleteNetwork nid

/-- A sequence of calls applied to the driver, first call first. -/
def driver.calls (d : driver) : List registryCall → driver
  | [] => d
  | c :: cs => (d.call c).calls cs

/-- The registry states the calls of this file can produce from the empty registry. -/
def driver.reachable (d : driver) : Prop :=
  ∃ cs : List registryCall, (driver.mk GoMap.empty).calls cs = d

/-- One call applied on the heap. -/
def Heap.call (h : Heap) : registryCall → Heap
  | registryCall.add n => h.addNetwork n
  | registryCall.del nid => h.deleteNetwork nid

/-- A sequence of calls applied on the heap, first call first. -/
def Heap.calls (h : Heap) : List registryCall → Heap
  | [] => h
  | c :: cs => (h.call c).calls cs

/-! ## Sample states -/

/-- A network with the given id and driver name and no endpoint. -/
def sampleNet (id : String) (tag : String) : network :=
  { id := id, endpoints := GoMap.empty, driverName := tag }

/-- A registry holding one network under `"net1"`. -/
def sampleDriver : driver :=
  (driver.mk GoMap.empty).addNetwork (sampleNet "net1" "ipvlan")

/-- An endpoint with the given id on `"net1"`. -/
def sampleEp (id : String) (addr : String) : endpoint :=
  { id := id, nid := "net1", addr := addr, addrv6 := "" }

/-- Network `"net1"` with the live endpoint `"ep1"`. -/
def liveNet : network :=
  (sampleNet "net1" "ipvlan").addEndpoint (sampleEp "ep1" "192.168.0.1")

/-- A registry holding `liveNet`. -/
def liveDriver : driver := (driver.mk GoMap.empty).addNetwork liveNet

end ipvlan

/-!
The embedded DNS resolver of `daemon/libnetwork`. Its implementation is not among the
sources (only `resolver_unix_test.go`, which drives it, is); the definitions of this part
follow the specification, sections 3 and 4.2 to 4.4, and take the names the test uses where
it shows them.
-/

namespace libnetwork

/-! ## Service record store -/

/-- Modelled from the spec: an IP address (Go `net.IP`) as its bytes. The empty list is the
absent address, `net.IP{}`. -/
abbrev IP := List Nat

/-- Modelled from the spec: the lower-cased form of a name, under which the store keeps and
looks up records ("inserts under lower-cased name", "case-insensitive match"). -/
def lowerName (s : String) : String := String.mk (s.data.map Char.toLower)

/-- Modelled from the spec: the Service Record of section 3, with the fields `AddRecord`
supplies. -/
structure svcRecord where
  name : String
  serviceName : String
  serviceID : String
  ipv4 : IP
  ipv6 : IP
  isAnycast : Bool
  taskName : String
  deriving DecidableEq, Repr

/-- Modelled from the spec: the Service Record Store of one network, the records in the
order they were added. Several records may sit under one name. -/
abbrev Store := List svcRecord

/-- Modelled from the spec: the record types a query can ask for. -/
inductive recordType where
  | A
  | AAAA
  | MX
  | PTR
  | other (code : Nat)
  deriving DecidableEq, Repr

/-- Modelled from the spec: `AddRecord(name, serviceName, serviceID, ipv4, ipv6, isAnycast,
taskName)` of section 4.2: "inserts under lower-cased name; no deduplication". -/
def AddRecord (st : Store) (name serviceName serviceID : String) (ipv4 ipv6 : IP)
    (isAnycast : Bool) (taskName : String) : Store :=
  st ++ [{ name := lowerName name, serviceName := serviceName, serviceID := serviceID,
           ipv4 := ipv4, ipv6 := ipv6, isAnycast := isAnycast, taskName := taskName }]

/-- A sequence of `AddRecord` calls, each given by its arguments, first call first. -/
def AddRecords (st : Store) : List svcRecord → Store
  | [] => st
  | c :: cs =>
    AddRecords (AddRecord st c.name c.serviceName c.serviceID c.ipv4 c.ipv6 c.isAnycast
      c.taskName) cs

/-- Records of the store kept under the lower-cased `name`. -/
def Store.hits (st : Store) (name : String) : List svcRecord :=
  st.filter (fun r => decide (r.name = lowerName name))

/-- Modelled from the spec: `Resolve(name, recordType) -> (addresses, found)` of section
4.2: "case-insensitive match. For A queries returns IPv4 set, AAAA returns IPv6 set. If
name is known but has no address of the requested family, found=true with zero
addresses". -/
def Resolve (st : Store) (name : String) (t : recordType) : List IP × Bool :=
  (match t with
   | recordType.A => ((st.hits name).map svcRecord.ipv4).filter (fun a => decide (a ≠ []))
   | recordType.AAAA => ((st.hits name).map svcRecord.ipv6).filter (fun a => decide (a ≠ []))
   | _ => [],
   !(st.hits name).isEmpty)

/-- Modelled from the spec: resolution in the record space a sandbox sees, "the union of
Service Record Stores of the sandbox's joined endpoints' networks" (section 3). -/
def ResolveName (stores : List Store) (name : String) (t : recordType) : List IP × Bool :=
  ((stores.map (fun st => (Resolve st name t).1)).flatten,
   stores.any (fun st => (Resolve st name t).2))

/-! ## DNS messages -/

/-- Modelled from the spec: DNS response codes, named as in `miekg/dns`. -/
inductive Rcode where
  | RcodeSuccess
  | RcodeFormatError
  | RcodeServerFailure
  | RcodeNameError
  | other (code : Nat)
  deriving DecidableEq, Repr

/-- Modelled from the spec: an answer record; only address records are told apart. -/
inductive RR where
  | A (addr : IP)
  | AAAA (addr : IP)
  | other (rrtype : Nat)
  deriving DecidableEq, Repr

/-- Modelled from the spec: a question, name in wire form (fully qualified, ending in a
dot) and requested type. -/
structure Question where
  name : String
  qtype : recordType
  deriving DecidableEq, Repr

/-- Modelled from the spec: an inbound message, as far as the resolver reads it. -/
structure Msg where
  questions : List Question
  deriving DecidableEq, Repr

/-- Modelled from the spec: a response, code and answer section. -/
structure Response where
  rcode : Rcode
  answers : List RR
  deriving DecidableEq, Repr

/-! ## External forwarder -/

/-- Struct `extDNSEntry` as the test builds it; the port is from the spec ("address, port
(default 53), host loopback flag"). -/
structure extDNSEntry where
  IPStr : String
  port : Nat
  HostLoopback : Bool
  deriving DecidableEq, Repr

/-- Modelled from the spec: `Send(query, timeout) -> (response, error)` of section 4.4, seen
from the resolver. `up n s q` is the outcome of the request sent to server `s` when `n`
requests have been sent before it: `some resp` is a response received, `none` a timeout or
transport error. Transport, timeout and host-loopback redirection are inside it. -/
abbrev Upstream := Nat → extDNSEntry → Question → Option Response

/-- The response of the resolver when it has no answer and nobody to ask. -/
def servFail : Response := { rcode := Rcode.RcodeServerFailure, answers := [] }

/-- Modelled from the spec: the reply the forwarder takes as the answer of an attempt, if
any. A timeout or transport error gives none (section 4.3, step 4). So does a reply with
code SERVFAIL: in `TestDNSProxyServFail` the upstream handler `newDNSHandlerServFailOnce`,
which counts the requests it receives, answers the first one with SERVFAIL, and the test
expects a second request. Every other reply is accepted, "even an authoritative negative
one (e.g., NXDOMAIN)". -/
def accepted : Option Response → Option Response
  | some resp => if resp.rcode = Rcode.RcodeServerFailure then none else some resp
  | none => none

/-- Modelled from the spec: step 4 of section 4.3, from the `n`-th request on: "send the
query to each configured server in list order; on timeout/transport error, retry
immediately with the next server; stop once all servers tried once; exhaustion → SERVFAIL",
a reply being relayed verbatim once it is accepted. Returns the response and the servers
tried, in order. -/
def forwardFrom (up : Upstream) (q : Question) : Nat → List extDNSEntry →
    Response × List extDNSEntry
  | _, [] => (servFail, [])
  | n, s :: rest =>
    match accepted (up n s q) with
    | some resp => (resp, [s])
    | none => ((forwardFrom up q (n + 1) rest).1, s :: (forwardFrom up q (n + 1) rest).2)

/-- Modelled from the spec: `Forward(query) -> response` of section 4.4, across the
ordered list. -/
def Forward (up : Upstream) (q : Question) (servers : List extDNSEntry) :
    Response × List extDNSEntry :=
  forwardFrom up q 0 servers

/-! ## Resolver -/

/-- Modelled from the spec: the per-sandbox resolver: the record space its sandbox sees,
the "proxying enabled" flag and the ordered external servers. -/
structure Resolver where
  listenAddress : String
  proxyDNS : Bool
  backend : List Store
  extDNSList : List extDNSEntry

/-- Constructor `NewResolver(address, proxyDNS, backend)` as the test calls it. -/
def NewResolver (address : String) (proxyDNS : Bool) (backend : List Store) : Resolver :=
  { listenAddress := address, proxyDNS := proxyDNS, backend := backend, extDNSList := [] }

/-- Method `SetExtServers` as the test calls it. -/
def Resolver.SetExtServers (r : Resolver) (extDNS : List extDNSEntry) : Resolver :=
  { r with extDNSList := extDNS }

/-- Modelled from the spec: the registered form of a wire name, without the final dot (the
spec registers "name1" and queries "name1."). -/
def trimDot (s : String) : String :=
  match s.data.reverse with
  | c :: r => if c = Char.ofNat 46 then String.mk r.reverse else s
  | [] => s

/-- The name is registered in a network the sandbox of the resolver has joined. -/
abbrev Resolver.knows (r : Resolver) (name : String) : Prop :=
  ∃ st ∈ r.backend, ∃ rec ∈ st, rec.name = lowerName name

/-- Modelled from the spec: step 2 of section 4.3. A known name is answered locally with
Success: the addresses of the requested family for A and AAAA, zero answers for any other
type; for an unknown name there is no local answer. -/
def Resolver.localAnswer (r : Resolver) (q : Question) : Option Response :=
  if (ResolveName r.backend (trimDot q.name) q.qtype).2 then
    some { rcode := Rcode.RcodeSuccess,
           answers :=
             match q.qtype with
             | recordType.A => (ResolveName r.backend (trimDot q.name) q.qtype).1.map RR.A
             | recordType.AAAA =>
               (ResolveName r.backend (trimDot q.name) q.qtype).1.map RR.AAAA
             | _ => [] }
  else none

/-- Modelled from the spec: the query dispatch of section 4.3, method `serveDNS` in the
test. Returns the response written and the external servers tried, in order. -/
def Resolver.serveDNS (r : Resolver) (up : Upstream) (m : Msg) :
    Response × List extDNSEntry :=
  match m.questions with
  | [] => ({ rcode := Rcode.RcodeFormatError, answers := [] }, [])
  | q :: _ =>
    match r.localAnswer q with
    | some resp => (resp, [])
    | none => if r.proxyDNS then Forward up q r.extDNSList else (servFail, [])

/-! ## The states of `resolver_unix_test.go` -/

/-- Store of network `dtnet1` after the `addSvcRecords` call of `TestDNSIPQuery`. -/
def testStore : Store :=
  AddRecord [] "name1" "" "svc1" [192, 168, 0, 1] [] true "test"

/-- A store with one record that has an IPv6 address only. -/
def v6Store : Store :=
  AddRecord [] "name6" "" "svc6" [] [253, 0, 0, 0, 0, 0, 0, 0, 0, 0, 0, 0, 0, 0, 0, 1]
    false "test"

/-- Resolver of `TestDNSIPQuery`: proxying disabled, sandbox joined to `dtnet1`. -/
def testResolver : Resolver := NewResolver "resolverIPSandbox" false [testStore]

/-- Message built by `q.SetQuestion(name, qtype)`. -/
def SetQuestion (name : String) (qtype : recordType) : Msg :=
  { questions := [{ name := name, qtype := qtype }] }

/-- External entry of `TestDNSProxyServFail`. -/
def extTestDNSEntry : extDNSEntry := { IPStr := "127.0.0.1", port := 53, HostLoopback := true }

/-- Resolver of `TestDNSProxyServFail`: proxying enabled, no record visible, the same
external entry configured twice. -/
def testProxyResolver : Resolver :=
  (NewResolver "resolverIPSandbox" true []).SetExtServers [extTestDNSEntry, extTestDNSEntry]

/-- Upstream of `TestDNSProxyServFail`, whose handler is `newDNSHandlerServFailOnce`: the
first request it receives is answered with SERVFAIL, every later one with Success. -/
def failOnce : Upstream :=
  fun n _ _ =>
    if n = 0 then some { rcode := Rcode.RcodeServerFailure, answers := [] }
    else some { rcode := Rcode.RcodeSuccess, answers := [] }

/-- An upstream on which every request meets a timeout or transport error. -/
def allFail : Upstream := fun _ _ _ => none

/-- An upstream that answers every request with SERVFAIL. -/
def allServFail : Upstream :=
  fun _ _ _ => some { rcode := Rcode.RcodeServerFailure, answers := [] }

/-- An upstream that answers every request with NXDOMAIN. -/
def nxdomainUp : Upstream :=
  fun _ _ _ => some { rcode := Rcode.RcodeNameError, answers := [] }

end libnetwork

namespace libnetwork

/-! ## Deleting records -/

/-- The record is the one `DeleteRecord(name, ipv4, ipv6)` looks for: kept under the
lower-cased name, with these two addresses. -/
def svcRecord.isMatch (r : svcRecord) (name : String) (ipv4 ipv6 : IP) : Bool :=
  decide (r.name = lowerName name ∧ r.ipv4 = ipv4 ∧ r.ipv6 = ipv6)

/-- Modelled from the spec: `DeleteRecord(name, ipv4, ipv6)` of section 4.2: "removes the
matching entry; no-op if absent". The store does not deduplicate, so the entry removed is
the first that matches. -/
def DeleteRecord : Store → String → IP → IP → Store
  | [], _, _, _ => []
  | r :: rest, name, ipv4, ipv6 =>
    if r.isMatch name ipv4 ipv6 then rest else r :: DeleteRecord rest name ipv4 ipv6

end libnetwork

/-!
The API server, `daemon/server/middleware.go`.
-/

namespace server

/-- Log levels of `containerd/log`, of which the code tests `DebugLevel`. -/
inductive Level where
  | PanicLevel
  | FatalLevel
  | ErrorLevel
  | WarnLevel
  | InfoLevel
  | DebugLevel
  | TraceLevel
  deriving DecidableEq, Repr

/-- Interface `middleware.Middleware`, of which the code calls `WrapHandler`. The handler
type `httputils.APIFunc` is a parameter. -/
structure Middleware (APIFunc : Type) where
  WrapHandler : APIFunc → APIFunc

/-- Struct `Server`, of which the code reads `middlewares`. -/
structure Server (APIFunc : Type) where
  middlewares : List (Middleware APIFunc)

/-- Method `(s *Server) handlerWithGlobalMiddlewares(handler)`. The level returned by
`log.GetLevel()` and the function `middleware.DebugRequestMiddleware` are parameters. -/
def Server.handlerWithGlobalMiddlewares {APIFunc : Type} (s : Server APIFunc) (level : Level)
    (DebugRequestMiddleware : APIFunc → APIFunc) (handler : APIFunc) : APIFunc :=
  if level = Level.DebugLevel then
    DebugRequestMiddleware (s.middlewares.foldl (fun next m => m.WrapHandler next) handler)
  else
    s.middlewares.foldl (fun next m => m.WrapHandler next) handler

/-- A handler described by the wrappers around it, outermost first. -/
abbrev wrapList := List String

/-- A middleware that records its name around the handler it wraps. -/
def named (name : String) : Middleware wrapList := { WrapHandler := fun next => name :: next }

end server

/-!
The image service, `daemon/images/image_tag.go`.
-/

namespace images

/-- Type `reference.Named` of `distribution/reference`, with the string
`reference.FamiliarString` gives for it. -/
structure Named where
  name : String
  familiarString : String
  deriving DecidableEq, Repr

/-- Function `reference.FamiliarString`. -/
def FamiliarString (ref : Named) : String := ref.familiarString

/-- Constant `events.ActionTag`. -/
def ActionTag : String := "tag"

/-- A call `TagImage` makes on its collaborators, with its arguments. -/
inductive call where
  | AddTag (ref : Named) (id : String) (force : Bool)
  | SetLastUpdated (id : String)
  | LogImageEvent (imageID refName action : String)
  deriving DecidableEq, Repr

/-- Struct `ImageService`, as far as `TagImage` uses it: `referenceStore.AddTag`,
`imageStore.SetLastUpdated` and `LogImageEvent`, each acting on the state `σ` of the
stores and the event log. The type `image.ID` is a digest string, so `imageID.Digest()` and
`imageID.String()` are the string itself. -/
structure ImageService (σ : Type) where
  AddTag : σ → Named → String → Bool → Option GoError × σ
  SetLastUpdated : σ → String → Option GoError × σ
  LogImageEvent : σ → String → String → String → σ

/-- Method `(i *ImageService) TagImage(ctx, imageID, newTag)`: the error returned, the state
left behind and the calls made, in order. -/
def ImageService.TagImage {σ : Type} (i : ImageService σ) (w : σ) (imageID : String)
    (newTag : Named) : Option GoError × σ × List call :=
  match i.AddTag w newTag imageID true with
  | (some err, w1) => (some err, w1, [call.AddTag newTag imageID true])
  | (none, w1) =>
    match i.SetLastUpdated w1 imageID with
    | (some err, w2) =>
      (some err, w2, [call.AddTag newTag imageID true, call.SetLastUpdated imageID])
    | (none, w2) =>
      (none, i.LogImageEvent w2 imageID (FamiliarString newTag) ActionTag,
       [call.AddTag newTag imageID true, call.SetLastUpdated imageID,
        call.LogImageEvent imageID (FamiliarString newTag) ActionTag])

/-- A state of the stores for examples: the tags added, the images touched, the events
logged. -/
structure sampleWorld where
  tags : List (String × String)
  updated : List String
  events : List (String × String × String)
  deriving DecidableEq, Repr

/-- An image service on `sampleWorld` whose `AddTag` and `SetLastUpdated` fail or not as
told. -/
def sampleService (addTagErr setErr : Option GoError) : ImageService sampleWorld :=
  { AddTag := fun w ref id _ =>
      match addTagErr with
      | some e => (some e, w)
      | none => (none, { w with tags := (ref.name, id) :: w.tags })
    SetLastUpdated := fun w id =>
      match setErr with
      | some e => (some e, w)
      | none => (none, { w with updated := id :: w.updated })
    LogImageEvent := fun w id ref action => { w with events := (id, ref, action) :: w.events } }

end images

/-!
The daemon, package `daemon`. Of `GetContainer` the sources hold the test only
(`daemon_test.go`); the definitions below follow what that test states, and the test itself
is embedded as checks on an arbitrary implementation.
-/

namespace daemon

/-! ## Container lookup -/

/-- Struct `container.Container`, as far as `TestGetContainer` fills it. -/
structure Container where
  ID : String
  Name : String
  deriving DecidableEq, Repr

/-- Struct `Daemon`, as far as `TestGetContainer` fills it: the memory store `containers`
(container by full ID), the replica `containersReplica` (the containers saved into the
view database, searched by ID prefix) and the names reserved in it (container ID by
name). -/
structure Daemon where
  containers : GoMap Container
  containersReplica : List Container
  names : GoMap String
  deriving DecidableEq

/-- Call `store.Add(id, c)` of the test. -/
def Daemon.Add (d : Daemon) (id : String) (c : Container) : Daemon :=
  { d with containers := d.containers.set id c }

/-- Call `containersReplica.Save(c)` of the test. -/
def Daemon.Save (d : Daemon) (c : Container) : Daemon :=
  { d with containersReplica :=
      d.containersReplica.filter (fun x => decide (x.ID ≠ c.ID)) ++ [c] }

/-- Call `daemon.reserveName(id, name)` of the test. -/
def Daemon.reserveName (d : Daemon) (id name : String) : Daemon :=
  { d with names := d.names.set name id }

/-- The string `p` is a beginning of the string `s`. -/
def startsWith (s p : String) : Bool := p.data.isPrefixOf s.data

/-- Modelled from the spec: lookup by exact name, `GetByName`, not among the sources: the
container whose ID the name is reserved for. -/
def Daemon.GetByName (d : Daemon) (name : String) : Option Container :=
  match d.names.get? name with
  | some id => d.containers.get? id
  | none => none

/-- Containers of the replica whose ID begins with `p`. -/
def Daemon.byIDStart (d : Daemon) (p : String) : List Container :=
  d.containersReplica.filter (fun c => startsWith c.ID p)

/-- Modelled from the spec: `Daemon.GetContainer`, not among the sources, and outside the
scope of the specification, which leaves container identity resolution to a collaborator.
The model follows what `TestGetContainer` states: "Should explicitly match full container
IDs", "Should match a full name even though it collides with another container's ID",
"Should match a partial ID", and an error for a beginning of several IDs or of none. The
full ID is tried first, then the reserved name, then the beginning of an ID. -/
def Daemon.GetContainer (d : Daemon) (prefixOrName : String) :
    Option Container × Option GoError :=
  match d.containers.get? prefixOrName with
  | some c => (some c, none)
  | none =>
    match d.GetByName prefixOrName with
    | some c => (some c, none)
    | none =>
      match d.byIDStart prefixOrName with
      | [] => (none, some (errors.New ("No such container: " ++ prefixOrName)))
      | [c] =>
        match d.containers.get? c.ID with
        | some ctr => (some ctr, none)
        | none => (none, some (errors.New ("No such container: " ++ prefixOrName)))
      | _ :: _ :: _ =>
        (none, some (errors.New ("multiple IDs found with provided prefix: " ++ prefixOrName)))

/-- Modelled from the spec: the same lookup with the two exact matches in the other order,
the reserved name before the full ID. No source fixes that order; what is stated of
`GetContainer` regardless of it is stated of both. -/
def Daemon.GetContainerNameFirst (d : Daemon) (prefixOrName : String) :
    Option Container × Option GoError :=
  match d.GetByName prefixOrName with
  | some c => (some c, none)
  | none =>
    match d.containers.get? prefixOrName with
    | some c => (some c, none)
    | none =>
      match d.byIDStart prefixOrName with
      | [] => (none, some (errors.New ("No such container: " ++ prefixOrName)))
      | [c] =>
        match d.containers.get? c.ID with
        | some ctr => (some ctr, none)
        | none => (none, some (errors.New ("No such container: " ++ prefixOrName)))
      | _ :: _ :: _ =>
        (none, some (errors.New ("multiple IDs found with provided prefix: " ++ prefixOrName)))

/-- Container `c1` of `TestGetContainer`. -/
def c1 : Container :=
  { ID := "5a4ff6a163ad4533d22d69a2b8960bf7fafdcba06e72d2febdba229008b0bf57",
    Name := "tender_bardeen" }

/-- Container `c2` of `TestGetContainer`. -/
def c2 : Container :=
  { ID := "3cdbd1aa394fd68559fd1441d6eff2ab7c1e6363582c82febfaa8045df3bd8de",
    Name := "drunk_hawking" }

/-- Container `c3` of `TestGetContainer`. -/
def c3 : Container :=
  { ID := "3cdbd1aa394fd68559fd1441d6eff2abfafdcba06e72d2febdba229008b0bf57",
    Name := "3cdbd1aa" }

/-- Container `c4` of `TestGetContainer`; its name is the full ID of `c1`. -/
def c4 : Container :=
  { ID := "75fb0b800922abdbef2d27e60abcdfaf7fb0698b2a96d22d3354da361a6ff4a5",
    Name := "5a4ff6a163ad4533d22d69a2b8960bf7fafdcba06e72d2febdba229008b0bf57" }

/-- Container `c5` of `TestGetContainer`. -/
def c5 : Container :=
  { ID := "d22d69a2b8960bf7fafdcba06e72d2febdba960bf7fafdcba06e72d2f9008b060b",
    Name := "d22d69a2b896" }

/-- The containers of `TestGetContainer`. -/
def testContainers : List Container := [c1, c2, c3, c4, c5]

/-- Daemon built by `TestGetContainer`: each container added to the store, saved into the
replica, and its name reserved. -/
def testDaemon : Daemon :=
  let d0 : Daemon := { containers := GoMap.empty, containersReplica := [], names := GoMap.empty }
  let d1 := testContainers.foldl (fun d c => d.Add c.ID c) d0
  let d2 := testContainers.foldl (fun d c => d.Save c) d1
  testContainers.foldl (fun d c => d.reserveName c.ID c.Name) d2

/-- Assertions of `TestGetContainer` on containers returned (lines 82 to 101), for an
arbitrary implementation `get` of `daemon.GetContainer` on the daemon of the test. -/
def TestGetContainerFinds (get : String → Option Container × Option GoError) : Bool :=
  decide ((get "3cdbd1aa394fd68559fd1441d6eff2ab7c1e6363582c82febfaa8045df3bd8de").1 = some c2)
  && decide ((get "75fb0b8009").1 = some c4)
  && decide ((get "drunk_hawking").1 = some c2)
  && decide ((get "3cdbd1aa").1 = some c3)
  && decide ((get "d22d69a2b896").1 = some c5)

/-- Assertions of `TestGetContainer` on errors (lines 103 to 109), for an arbitrary
implementation `get` of `daemon.GetContainer` on the daemon of the test. -/
def TestGetContainerErrors (get : String → Option Container × Option GoError) : Bool :=
  decide ((get "3cdbd1").2 ≠ none) && decide ((get "nothing").2 ≠ none)

end daemon

namespace ipvlan

/-! ## Runs of endpoint calls, and calls with the registry they leave behind -/

/-- A state-changing call on the endpoint registry of a network. -/
inductive endpointCall where
  | add (ep : endpoint)
  | del (eid : String)

/-- One call applied to the network. -/
def network.call (n : network) : endpointCall → network
  | endpointCall.add ep => n.addEndpoint ep
  | endpointCall.del eid => n.deleteEndpoint eid

/-- A sequence of calls applied to the network, first call first. -/
def network.calls (n : network) : List endpointCall → network
  | [] => n
  | c :: cs => (n.call c).calls cs

/-- The network states the calls of this file can produce from a network without
endpoints. -/
def network.reachable (n : network) : Prop :=
  ∃ (n0 : ipvlan.network) (cs : List endpointCall), n0.endpoints = GoMap.empty ∧ n0.calls cs = n

/-- A method call on the driver, lookups included. -/
inductive driverCall where
  | network (nid : String)
  | addNetwork (n : ipvlan.network)
  | deleteNetwork (nid : String)
  | getNetworks
  | getNetwork (id : String)

/-- The registry a call on the driver leaves behind: the writes of the method body to
`d.networks`. The lookups contain none. -/
def driver.after (d : driver) : driverCall → driver
  | driverCall.network _ => d
  | driverCall.addNetwork n => d.addNetwork n
  | driverCall.deleteNetwork nid => d.deleteNetwork nid
  | driverCall.getNetworks => d
  | driverCall.getNetwork _ => d

/-- A method call on a network, lookups included. -/
inductive networkCall where
  | endpoint (eid : String)
  | addEndpoint (ep : ipvlan.endpoint)
  | deleteEndpoint (eid : String)
  | getEndpoint (eid : String)

/-- The network a call leaves behind: the writes of the method body to `n.endpoints`. The
lookups contain none. -/
def network.after (n : network) : networkCall → network
  | networkCall.endpoint _ => n
  | networkCall.addEndpoint ep => n.addEndpoint ep
  | networkCall.deleteEndpoint eid => n.deleteEndpoint eid
  | networkCall.getEndpoint _ => n

/-! ## Locking -/

/-- A mutex of the registries: the one embedded in the driver, or the one embedded in the
network with the given id. -/
inductive mutex where
  | driver
  | network (nid : String)
  deriving DecidableEq, Repr

/-- What a statement of a method does, as far as locking is concerned. -/
inductive action where
  | Lock (m : mutex)
  | Unlock (m : mutex)
  | mapAccess (m : mutex)
  | compute
  | logError
  deriving DecidableEq, Repr

/-- A call of a function of `ipvlan_state.go`; a method of a network names its receiver
by the network id. -/
inductive method where
  | network (nid : String)
  | addNetwork (nid : String)
  | deleteNetwork (nid : String)
  | getNetworks
  | endpoint (nid eid : String)
  | addEndpoint (nid eid : String)
  | deleteEndpoint (nid eid : String)
  | getEndpoint (nid eid : String)
  | validateID (nid eid : String)
  | getNetwork (id : String)
  deriving DecidableEq, Repr

/-- The statements a call executes, in order; `found` tells whether the map holds the key
looked up. `mapAccess m` is a read, write, delete or iteration of the map guarded by `m`,
`compute` a comparison, an error construction or a slice operation, `logError` the call of
the logger. A deferred `Unlock` comes last. -/
def method.actions : method → Bool → List action
  | method.network _, found =>
    [action.Lock mutex.driver, action.mapAccess mutex.driver, action.Unlock mutex.driver]
      ++ (if found then [] else [action.logError])
  | method.addNetwork _, _ =>
    [action.Lock mutex.driver, action.mapAccess mutex.driver, action.Unlock mutex.driver]
  | method.deleteNetwork _, _ =>
    [action.Lock mutex.driver, action.mapAccess mutex.driver, action.Unlock mutex.driver]
  | method.getNetworks, _ =>
    [action.Lock mutex.driver, action.compute, action.mapAccess mutex.driver, action.compute,
     action.Unlock mutex.driver]
  | method.endpoint nid _, _ =>
    [action.Lock (mutex.network nid), action.mapAccess (mutex.network nid),
     action.Unlock (mutex.network nid)]
  | method.addEndpoint nid _, _ =>
    [action.Lock (mutex.network nid), action.mapAccess (mutex.network nid),
     action.Unlock (mutex.network nid)]
  | method.deleteEndpoint nid _, _ =>
    [action.Lock (mutex.network nid), action.mapAccess (mutex.network nid),
     action.Unlock (mutex.network nid)]
  | method.getEndpoint nid eid, _ =>
    [action.Lock (mutex.network nid), action.compute]
      ++ (if eid = "" then [action.compute] else [action.mapAccess (mutex.network nid)])
      ++ [action.Unlock (mutex.network nid)]
  | method.validateID _ _, _ => [action.compute, action.compute]
  | method.getNetwork id, found =>
    [action.Lock mutex.driver, action.compute]
      ++ (if id = "" then [action.compute]
          else action.mapAccess mutex.driver :: (if found then [] else [action.compute]))
      ++ [action.Unlock mutex.driver]

/-- Lock discipline of a statement sequence, started with `held` locked: `none` when the
sequence locks a mutex while one is held, unlocks a mutex other than the one held, touches
a map without holding its mutex, or calls the logger while a mutex is held; otherwise the
mutex held at the end. -/
def heldAfter : Option mutex → List action → Option (Option mutex)
  | h, [] => some h
  | none, action.Lock m :: rest => heldAfter (some m) rest
  | some _, action.Lock _ :: _ => none
  | none, action.Unlock _ :: _ => none
  | some h, action.Unlock m :: rest => if m = h then heldAfter none rest else none
  | none, action.mapAccess _ :: _ => none
  | some h, action.mapAccess m :: rest => if m = h then heldAfter (some h) rest else none
  | h, action.compute :: rest => heldAfter h rest
  | none, action.logError :: rest => heldAfter none rest
  | some _, action.logError :: _ => none

/-- A goroutine: the mutexes it holds and the statements it has still to execute. -/
structure thread where
  held : List mutex
  rest : List action
  deriving DecidableEq, Repr

/-- Some goroutine holds the mutex. -/
def holds (c : List thread) (m : mutex) : Bool := c.any (fun t => decide (m ∈ t.held))

/-- One statement of a goroutine, among the goroutines `c`: `Lock` needs the mutex free,
`Unlock` needs it held by the goroutine, and any other statement can always run. `none`
when the goroutine has finished or cannot run now. -/
def thread.step (c : List thread) (t : thread) : Option thread :=
  match t.rest with
  | [] => none
  | action.Lock m :: rest => if holds c m then none else some { held := m :: t.held, rest := rest }
  | action.Unlock m :: rest =>
    if m ∈ t.held then some { held := t.held.erase m, rest := rest } else none
  | _ :: rest => some { held := t.held, rest := rest }

/-- One step of the system: goroutine number `i` executes its next statement. -/
def stepAt (sys : List thread) (i : Nat) : Option (List thread) :=
  match sys[i]? with
  | none => none
  | some t =>
    match t.step sys with
    | none => none
    | some t' => some (sys.set i t')

/-- The system after the goroutines have run in the order of the schedule, `none` when
the schedule asks for a step that cannot be taken. -/
def runSched (c : List thread) : List Nat → Option (List thread)
  | [] => some c
  | i :: sched =>
    match stepAt c i with
    | none => none
    | some c' => runSched c' sched

/-- The statements of a goroutine that makes the given calls one after the other. -/
def program : List (method × Bool) → List action
  | [] => []
  | mb :: rest => mb.1.actions mb.2 ++ program rest

/-- A system of goroutines, each about to make its calls, no mutex held. -/
def spawn (progs : List (List (method × Bool))) : List thread :=
  progs.map (fun p => { held := [], rest := program p })

/-- Every goroutine has finished. -/
def finished (c : List thread) : Bool := c.all (fun t => t.rest.isEmpty)

end ipvlan

namespace ipvlan

/-- Two goroutines: one calls `getNetwork "net1"`, the other `addEndpoint` on `"net1"`. -/
def samplePrograms : List (List (method × Bool)) :=
  [[(method.getNetwork "net1", true)], [(method.addEndpoint "net1" "ep1", true)]]

/-- The two goroutines after each has taken its lock. -/
def sampleSys : List thread :=
  [{ held := [mutex.driver],
     rest := [action.compute, action.mapAccess mutex.driver, action.Unlock mutex.driver] },
   { held := [mutex.network "net1"],
     rest := [action.mapAccess (mutex.network "net1"), action.Unlock (mutex.network "net1")] }]

/-- The goroutine holds no mutex and its remaining statements keep the lock discipline, or
it holds one mutex and its remaining statements keep the discipline from there. -/
def thread.disciplined (t : thread) : Prop :=
  (t.held = [] ∧ heldAfter none t.rest = some none)
  ∨ ∃ m, t.held = [m] ∧ heldAfter (some m) t.rest = some none

end ipvlan

namespace images

/-- The call logs an event. -/
def call.isEvent : call → Bool
  | call.LogImageEvent _ _ _ => true
  | _ => false

end images

/-! ## Lemmas on Go maps -/

namespace GoMap

variable {V : Type}

theorem not_mem_keys_eraseL (k : String) (l : List (String × V)) :
    k ∉ (eraseL k l).map Prod.fst := by
  simp [eraseL, List.mem_map, List.mem_filter]

theorem ext_entries {a b : GoMap V} (h : a.entries = b.entries) : a = b := by
  cases a; cases b; cases h; rfl

theorem eraseL_cons_self (k : String) (v : V) (l : List (String × V)) :
    eraseL k ((k, v) :: l) = eraseL k l := by
  simp [eraseL]

theorem eraseL_cons_ne {a k : String} (h : a ≠ k) (v : V) (l : List (String × V)) :
    eraseL k ((a, v) :: l) = (a, v) :: eraseL k l := by
  simp [eraseL, h]

theorem lookupL_cons_self (k : String) (v : V) (l : List (String × V)) :
    lookupL k ((k, v) :: l) = some v := by
  simp [lookupL]

theorem lookupL_cons_ne {a k : String} (h : a ≠ k) (v : V) (l : List (String × V)) :
    lookupL k ((a, v) :: l) = lookupL k l := by
  simp [lookupL, h]

theorem lookupL_eraseL_self (k : String) (l : List (String × V)) :
    lookupL k (eraseL k l) = none := by
  induction l with
  | nil => rfl
  | cons e rest ih =>
    obtain ⟨a, v⟩ := e
    by_cases h : a = k
    · subst h
      rw [eraseL_cons_self]
      exact ih
    · rw [eraseL_cons_ne h, lookupL_cons_ne h]
      exact ih

theorem lookupL_eraseL_ne {j k : String} (hjk : j ≠ k) (l : List (String × V)) :
    lookupL j (eraseL k l) = lookupL j l := by
  induction l with
  | nil => rfl
  | cons e rest ih =>
    obtain ⟨a, v⟩ := e
    by_cases h : a = k
    · subst h
      rw [eraseL_cons_self, lookupL_cons_ne (Ne.symm hjk)]
      exact ih
    · rw [eraseL_cons_ne h]
      by_cases hj : a = j
      · subst hj
        rw [lookupL_cons_self, lookupL_cons_self]
      · rw [lookupL_cons_ne hj, lookupL_cons_ne hj]
        exact ih

theorem lookupL_eq_none_iff (k : String) (l : List (String × V)) :
    lookupL k l = none ↔ k ∉ l.map Prod.fst := by
  induction l with
  | nil => simp [lookupL]
  | cons e rest ih =>
    by_cases h : e.1 = k
    · simp [lookupL, h]
    · have hk : ¬ k = e.1 := fun hke => h hke.symm
      simp [lookupL, h, hk, ih]

theorem eraseL_of_not_mem {k : String} {l : List (String × V)}
    (h : k ∉ l.map Prod.fst) : eraseL k l = l := by
  apply List.filter_eq_self.2
  intro e he
  have : e.1 ≠ k := fun hek => h (hek ▸ List.mem_map_of_mem Prod.fst he)
  simpa using this

theorem eraseL_idem (k : String) (l : List (String × V)) :
    eraseL k (eraseL k l) = eraseL k l :=
  eraseL_of_not_mem (not_mem_keys_eraseL k l)

theorem length_eraseL_of_mem {k : String} {l : List (String × V)}
    (hnd : (l.map Prod.fst).Nodup) (hk : k ∈ l.map Prod.fst) :
    (eraseL k l).length + 1 = l.length := by
  induction l with
  | nil => simp at hk
  | cons e rest ih =>
    have hnd2 : e.1 ∉ rest.map Prod.fst ∧ (rest.map Prod.fst).Nodup := by
      simpa [List.nodup_cons] using hnd
    by_cases h : e.1 = k
    · have hrest : k ∉ rest.map Prod.fst := h ▸ hnd2.1
      have : eraseL k (e :: rest) = eraseL k rest := by simp [eraseL, h]
      rw [this, eraseL_of_not_mem hrest]
      rfl
    · have hk2 : k ∈ rest.map Prod.fst := by
        have : k = e.1 ∨ k ∈ rest.map Prod.fst := by simpa using hk
        rcases this with h1 | h1
        · exact absurd h1.symm h
        · exact h1
      have : eraseL k (e :: rest) = e :: eraseL k rest := by simp [eraseL, h]
      rw [this]
      simpa using ih hnd2.2 hk2

theorem map_some_snd_eq_lookupL {l : List (String × V)} (hnd : (l.map Prod.fst).Nodup) :
    (l.map Prod.snd).map some = (l.map Prod.fst).map (fun k => lookupL k l) := by
  induction l with
  | nil => rfl
  | cons e rest ih =>
    have hnd2 : e.1 ∉ rest.map Prod.fst ∧ (rest.map Prod.fst).Nodup := by
      simpa [List.nodup_cons] using hnd
    have htail : (rest.map Prod.fst).map (fun k => lookupL k (e :: rest))
        = (rest.map Prod.fst).map (fun k => lookupL k rest) := by
      apply List.map_congr_left
      intro k hk
      have : e.1 ≠ k := fun hek => hnd2.1 (hek ▸ hk)
      simp [lookupL, this]
    simp only [List.map_cons, htail, ← ih hnd2.2]
    simp [lookupL]

/-- Reading the key just written gives the value written. -/
theorem get?_set_self (m : GoMap V) (k : String) (v : V) : (m.set k v).get? k = some v := by
  simp [get?, set, lookupL]

/-- Writing one key leaves every other key as it was. -/
theorem get?_set_ne (m : GoMap V) {j k : String} (h : j ≠ k) (v : V) :
    (m.set k v).get? j = m.get? j := by
  have hk : k ≠ j := fun hkj => h hkj.symm
  simp [get?, set, lookupL, hk, lookupL_eraseL_ne h]

/-- A deleted key is absent. -/
theorem get?_delete_self (m : GoMap V) (k : String) : (m.delete k).get? k = none :=
  lookupL_eraseL_self k m.entries

/-- Deleting one key leaves every other key as it was. -/
theorem get?_delete_ne (m : GoMap V) {j k : String} (h : j ≠ k) :
    (m.delete k).get? j = m.get? j :=
  lookupL_eraseL_ne h m.entries

/-- A lookup misses exactly on the keys the map does not hold. -/
theorem get?_eq_none_iff (m : GoMap V) (k : String) : m.get? k = none ↔ k ∉ m.keys :=
  lookupL_eq_none_iff k m.entries

/-- Deleting an absent key gives back the same map. -/
theorem delete_of_not_mem (m : GoMap V) {k : String} (h : k ∉ m.keys) : m.delete k = m :=
  ext_entries (eraseL_of_not_mem h)

/-- Writing a key twice is the same as the second write alone. -/
theorem set_set (m : GoMap V) (k : String) (v w : V) : (m.set k v).set k w = m.set k w := by
  apply ext_entries
  have h : eraseL k ((k, v) :: eraseL k m.entries) = eraseL k m.entries := by
    have : eraseL k ((k, v) :: eraseL k m.entries) = eraseL k (eraseL k m.entries) := by
      simp [eraseL]
    rw [this, eraseL_idem]
  simp [set, h]

/-- Deleting a present key shortens the map by one. -/
theorem len_delete_of_mem (m : GoMap V) {k : String} (h : k ∈ m.keys) :
    (m.delete k).len + 1 = m.len :=
  length_eraseL_of_mem m.nodup h

/-- Overwriting a present key keeps the number of entries. -/
theorem len_set_of_mem (m : GoMap V) {k : String} (h : k ∈ m.keys) (v : V) :
    (m.set k v).len = m.len := by
  have := length_eraseL_of_mem m.nodup h
  simpa [len, set] using this

/-- The key just written is a key of the map. -/
theorem mem_keys_set (m : GoMap V) (k : String) (v : V) : k ∈ (m.set k v).keys := by
  simp [keys, set]

/-- Iterating the values is reading the keys one by one. -/
theorem values_eq_keys_get? (m : GoMap V) : m.values.map some = m.keys.map m.get? :=
  map_some_snd_eq_lookupL m.nodup

theorem lookupL_eq_some_of_mem {l : List (String × V)} (hnd : (l.map Prod.fst).Nodup)
    {k : String} {v : V} (h : (k, v) ∈ l) : lookupL k l = some v := by
  induction l with
  | nil => simp at h
  | cons e rest ih =>
    obtain ⟨a, w⟩ := e
    have hnd2 : a ∉ rest.map Prod.fst ∧ (rest.map Prod.fst).Nodup := by
      simpa [List.nodup_cons] using hnd
    rcases List.mem_cons.1 h with h1 | h1
    · cases h1
      exact lookupL_cons_self k v rest
    · have hak : a ≠ k := fun hak => hnd2.1 (hak ▸ List.mem_map_of_mem Prod.fst h1)
      rw [lookupL_cons_ne hak]
      exact ih hnd2.2 h1

/-- An entry of the map is what a lookup of its key returns. -/
theorem get?_of_mem_entries (m : GoMap V) {k : String} {v : V} (h : (k, v) ∈ m.entries) :
    m.get? k = some v :=
  lookupL_eq_some_of_mem m.nodup h

/-- A value met when iterating the map after `delete(m, k)` sits under a key other than
`k`, in the map before the deletion too. -/
theorem mem_values_delete (m : GoMap V) {k : String} {v : V} (h : v ∈ (m.delete k).values) :
    ∃ j, j ≠ k ∧ m.get? j = some v := by
  obtain ⟨e, he, hv⟩ := List.mem_map.1 h
  have he2 : e ∈ m.entries ∧ e.1 ≠ k := by
    simpa [delete, eraseL, List.mem_filter] using he
  refine ⟨e.1, he2.2, ?_⟩
  apply get?_of_mem_entries
  rw [← hv]
  exact he2.1

/-- A stored value is met when iterating the map. -/
theorem mem_values_of_get? (m : GoMap V) {k : String} {v : V} (h : m.get? k = some v) :
    v ∈ m.values := by
  have hmem : some v ∈ m.values.map some := by
    rw [values_eq_keys_get?]
    refine List.mem_map.2 ⟨k, ?_, h⟩
    by_contra hk
    rw [(get?_eq_none_iff m k).2 hk] at h
    simp at h
  simpa using hmem

end GoMap

namespace ipvlan

theorem foldl_append_snd {V : Type} (l : List (String × V)) (acc : List V) :
    l.foldl (fun ls e => ls ++ [e.2]) acc = acc ++ l.map Prod.snd := by
  induction l generalizing acc with
  | nil => simp
  | cons e rest ih => simp [ih]

/-- The loop of `getNetworks` collects the values of the map. -/
theorem driver.getNetworks_eq_values (d : driver) : d.getNetworks = d.networks.values := by
  simp [driver.getNetworks, GoMap.values, foldl_append_snd]

theorem driver.call_keeps_keyed (d : driver) (c : registryCall)
    (hd : ∀ k v, d.networks.get? k = some v → ∃ n : ipvlan.network, v = some n ∧ n.id = k) :
    ∀ k v, (d.call c).networks.get? k = some v → ∃ n : ipvlan.network, v = some n ∧ n.id = k := by
  intro k v hkv
  cases c with
  | add n =>
    by_cases hk : k = n.id
    · subst hk
      have h : (d.addNetwork n).networks.get? n.id = some (some n) := GoMap.get?_set_self _ _ _
      have hkv2 : (d.addNetwork n).networks.get? n.id = some v := hkv
      rw [h] at hkv2
      exact ⟨n, (Option.some.inj hkv2).symm, rfl⟩
    · have h : (d.addNetwork n).networks.get? k = d.networks.get? k :=
        GoMap.get?_set_ne _ hk _
      have hkv2 : (d.addNetwork n).networks.get? k = some v := hkv
      rw [h] at hkv2
      exact hd k v hkv2
  | del nid =>
    by_cases hk : k = nid
    · subst hk
      have h : (d.deleteNetwork k).networks.get? k = none := GoMap.get?_delete_self _ _
      have hkv2 : (d.deleteNetwork k).networks.get? k = some v := hkv
      rw [h] at hkv2
      cases hkv2
    · have h : (d.deleteNetwork nid).networks.get? k = d.networks.get? k :=
        GoMap.get?_delete_ne _ hk
      have hkv2 : (d.deleteNetwork nid).networks.get? k = some v := hkv
      rw [h] at hkv2
      exact hd k v hkv2

theorem driver.calls_keep_keyed (cs : List registryCall) (d : driver)
    (hd : ∀ k v, d.networks.get? k = some v → ∃ n : ipvlan.network, v = some n ∧ n.id = k) :
    ∀ k v, (d.calls cs).networks.get? k = some v → ∃ n : ipvlan.network, v = some n ∧ n.id = k := by
  induction cs generalizing d with
  | nil => exact hd
  | cons c cs ih => exact ih (d.call c) (driver.call_keeps_keyed d c hd)

/-- In a reachable registry every key holds a non-nil network whose id is that key. -/
theorem driver.reachable_keyed (d : driver) (h : d.reachable) :
    ∀ k v, d.networks.get? k = some v → ∃ n : ipvlan.network, v = some n ∧ n.id = k := by
  obtain ⟨cs, rfl⟩ := h
  apply driver.calls_keep_keyed
  intro k v hkv
  cases hkv

theorem Heap.calls_slices (cs : List registryCall) (h : Heap) :
    (h.calls cs).slices = h.slices ∧ (h.calls cs).drv = h.drv.calls cs := by
  induction cs generalizing h with
  | nil => exact ⟨rfl, rfl⟩
  | cons c cs ih =>
    cases c with
    | add n => exact ih (h.addNetwork n)
    | del nid => exact ih (h.deleteNetwork nid)

/-! ## Network registry: lookup by id -/

/-- C1: in every registry state, `getNetwork ""` returns the nil network and an error
of the InvalidParameter class, the same for all states: the map is not consulted. This holds
in particular right after `addNetwork` has registered a network whose id is empty, which
is then stored under the key `""`. -/
theorem getNetwork_empty_id (d : driver) (n : network) :
    d.getNetwork "" = (none, some (types.InvalidParameterErrorf "invalid network id: "))
    ∧ (d.getNetwork "").2.map GoError.cls = some ErrorClass.InvalidParameter
    ∧ (d.addNetwork { n with id := "" }).networks.get? "" = some (some { n with id := "" })
    ∧ (d.addNetwork { n with id := "" }).getNetwork ""
        = (none, some (types.InvalidParameterErrorf "invalid network id: ")) := by
  refine ⟨rfl, rfl, ?_, rfl⟩
  exact GoMap.get?_set_self _ _ _

/-- C2: for a non-empty id, `getNetwork id` returns an error exactly when `id` is not
a key of the registry; that error is of the NotFound class (so not InvalidParameter) and
comes with the nil network; when there is no error the returned pointer is the one stored
under `id`. -/
theorem getNetwork_nonempty_id (d : driver) (id : String) (hid : id ≠ "") :
    ((d.getNetwork id).2 ≠ none ↔ id ∉ d.networks.keys)
    ∧ (id ∉ d.networks.keys →
        d.getNetwork id = (none, some (types.NotFoundErrorf ("network not found: " ++ id))))
    ∧ (∀ e, (d.getNetwork id).2 = some e →
        e.cls = ErrorClass.NotFound ∧ e.cls ≠ ErrorClass.InvalidParameter
          ∧ (d.getNetwork id).1 = none)
    ∧ (∀ nw, d.networks.get? id = some nw → d.getNetwork id = (nw, none))
    ∧ ((d.getNetwork id).2 = none → d.networks.get? id = some (d.getNetwork id).1) := by
  have hmem := GoMap.get?_eq_none_iff d.networks id
  cases hget : d.networks.get? id with
  | none =>
    have hnot : id ∉ d.networks.keys := hmem.1 hget
    have hres : d.getNetwork id
        = (none, some (types.NotFoundErrorf ("network not found: " ++ id))) := by
      simp [driver.getNetwork, hid, hget]
    refine ⟨?_, fun _ => hres, ?_, ?_, ?_⟩
    · simp [hres, hnot]
    · intro e he
      rw [hres] at he
      have : types.NotFoundErrorf ("network not found: " ++ id) = e := by simpa using he
      subst this
      simp [hres, types.NotFoundErrorf]
    · intro nw h
      simp at h
    · intro h
      simp [hres] at h
  | some nw =>
    have hin : ¬ id ∉ d.networks.keys := fun h => by
      have := hmem.2 h
      rw [hget] at this
      simp at this
    have hres : d.getNetwork id = (nw, none) := by
      simp [driver.getNetwork, hid, hget]
    refine ⟨?_, fun h => absurd h hin, ?_, ?_, ?_⟩
    · simp [hres, hin]
    · intro e he
      simp [hres] at he
    · intro nw2 h
      have : nw = nw2 := by simpa using h
      rw [hres, this]
    · intro _
      simp [hres]

/-- Witness of C2 at the one-network registry: its key `"net1"` is found, the id `"net9"`
is not. -/
theorem getNetwork_nonempty_id_witness :
    "net1" ≠ "" ∧ "net9" ≠ "" ∧ "net9" ∉ sampleDriver.networks.keys
    ∧ sampleDriver.getNetwork "net1" = (some (sampleNet "net1" "ipvlan"), none)
    ∧ sampleDriver.getNetwork "net9"
        = (none, some (types.NotFoundErrorf ("network not found: " ++ "net9"))) :=
  ⟨by decide, by decide, by decide,
   (getNetwork_nonempty_id sampleDriver "net1" (by decide)).2.2.2.1 _ (by decide),
   (getNetwork_nonempty_id sampleDriver "net9" (by decide)).2.1 (by decide)⟩

/-! ## Network registry: registering -/

/-- C3: after `addNetwork n` with `n.id` non-empty, `getNetwork n.id` has no error
and returns `n`. -/
theorem addNetwork_then_getNetwork (d : driver) (n : network) (hid : n.id ≠ "") :
    (d.addNetwork n).getNetwork n.id = (some n, none) := by
  have h : (d.addNetwork n).networks.get? n.id = some (some n) := GoMap.get?_set_self _ _ _
  simp [driver.getNetwork, hid, h]

/-- Witness of C3: registering `"net2"` next to `"net1"`. -/
theorem addNetwork_then_getNetwork_witness :
    (sampleNet "net2" "ipvlan").id ≠ ""
    ∧ (sampleDriver.addNetwork (sampleNet "net2" "ipvlan")).getNetwork
        (sampleNet "net2" "ipvlan").id = (some (sampleNet "net2" "ipvlan"), none) :=
  ⟨by decide, addNetwork_then_getNetwork sampleDriver (sampleNet "net2" "ipvlan") (by decide)⟩

/-- C4, as stated, fails for the empty id: two networks with id `""` are registered one
after the other, and `getNetwork ""` does not return the second one but the nil network
and an InvalidParameter error. -/
theorem addNetwork_twice_empty_id_counterexample :
    (sampleNet "" "first").id = (sampleNet "" "second").id
    ∧ (((driver.mk GoMap.empty).addNetwork (sampleNet "" "first")).addNetwork
          (sampleNet "" "second")).getNetwork (sampleNet "" "second").id
        ≠ (some (sampleNet "" "second"), none)
    ∧ (((driver.mk GoMap.empty).addNetwork (sampleNet "" "first")).addNetwork
          (sampleNet "" "second")).getNetwork (sampleNet "" "second").id
        = (none, some (types.InvalidParameterErrorf "invalid network id: ")) := by
  decide

/-- C4, amended: for two networks with the same id, `addNetwork n1` followed by
`addNetwork n2` leaves the registry in the state `addNetwork n2` alone gives, the second
add does not change the number of entries `getNetworks` returns, and, when the id is not
empty, `getNetwork` of that id returns `n2`. -/
theorem addNetwork_last_write_wins (d : driver) (n1 n2 : network) (hid : n1.id = n2.id) :
    (d.addNetwork n1).addNetwork n2 = d.addNetwork n2
    ∧ ((d.addNetwork n1).addNetwork n2).getNetworks.length
        = (d.addNetwork n1).getNetworks.length
    ∧ (n2.id ≠ "" → ((d.addNetwork n1).addNetwork n2).getNetwork n2.id = (some n2, none)) := by
  refine ⟨?_, ?_, ?_⟩
  · simp only [driver.addNetwork, hid]
    rw [GoMap.set_set]
  · have hmem : n2.id ∈ (d.addNetwork n1).networks.keys := by
      rw [← hid]
      exact GoMap.mem_keys_set _ _ _
    have := GoMap.len_set_of_mem (d.addNetwork n1).networks hmem (some n2)
    simpa [driver.getNetworks_eq_values, GoMap.values, GoMap.len, driver.addNetwork] using this
  · intro hne
    have h : ((d.addNetwork n1).addNetwork n2).networks.get? n2.id = some (some n2) :=
      GoMap.get?_set_self _ _ _
    simp [driver.getNetwork, hne, h]

/-- Witness of amended C4: `"net1"` registered twice with different content. -/
theorem addNetwork_last_write_wins_witness :
    (sampleNet "net1" "first").id = (sampleNet "net1" "second").id
    ∧ (sampleNet "net1" "second").id ≠ ""
    ∧ (sampleDriver.addNetwork (sampleNet "net1" "first")).addNetwork (sampleNet "net1" "second")
        = sampleDriver.addNetwork (sampleNet "net1" "second")
    ∧ ((sampleDriver.addNetwork (sampleNet "net1" "first")).addNetwork
          (sampleNet "net1" "second")).getNetwork (sampleNet "net1" "second").id
        = (some (sampleNet "net1" "second"), none) :=
  ⟨by decide, by decide,
   (addNetwork_last_write_wins sampleDriver (sampleNet "net1" "first")
      (sampleNet "net1" "second") (by decide)).1,
   (addNetwork_last_write_wins sampleDriver (sampleNet "net1" "first")
      (sampleNet "net1" "second") (by decide)).2.2 (by decide)⟩

/-! ## Network registry: deleting -/

/-- C5: `deleteNetwork` of an id that is not registered gives back the same registry;
`getNetworks` returns the same networks and `getNetwork` the same result for every id. -/
theorem deleteNetwork_unregistered (d : driver) (id : String) (h : id ∉ d.networks.keys) :
    d.deleteNetwork id = d
    ∧ (d.deleteNetwork id).getNetworks = d.getNetworks
    ∧ (∀ j, (d.deleteNetwork id).getNetwork j = d.getNetwork j) := by
  have heq : d.deleteNetwork id = d := by
    cases d with
    | mk nets =>
      simp only [driver.deleteNetwork]
      rw [GoMap.delete_of_not_mem nets h]
  refine ⟨heq, ?_, ?_⟩
  · rw [heq]
  · intro j
    rw [heq]

/-- Witness of C5: deleting `"net9"` from the registry that holds only `"net1"`. -/
theorem deleteNetwork_unregistered_witness :
    "net9" ∉ sampleDriver.networks.keys
    ∧ sampleDriver.deleteNetwork "net9" = sampleDriver
    ∧ (sampleDriver.deleteNetwork "net9").getNetworks = sampleDriver.getNetworks :=
  ⟨by decide, (deleteNetwork_unregistered sampleDriver "net9" (by decide)).1,
   (deleteNetwork_unregistered sampleDriver "net9" (by decide)).2.1⟩

/-- C6, as stated, fails for the empty id: a network registered under `""` is deleted,
and `getNetwork ""` afterwards fails with an InvalidParameter error, not with NotFound. -/
theorem deleteNetwork_empty_id_counterexample :
    ((driver.mk GoMap.empty).addNetwork (sampleNet "" "ipvlan")).networks.get? ""
        = some (some (sampleNet "" "ipvlan"))
    ∧ ((((driver.mk GoMap.empty).addNetwork (sampleNet "" "ipvlan")).deleteNetwork
          "").getNetwork "").2.map GoError.cls ≠ some ErrorClass.NotFound
    ∧ ((((driver.mk GoMap.empty).addNetwork (sampleNet "" "ipvlan")).deleteNetwork
          "").getNetwork "").2.map GoError.cls = some ErrorClass.InvalidParameter := by
  decide

/-- C6, amended: in every registry state reachable by `addNetwork` and `deleteNetwork`
calls, for every registered id that is not empty, the network stored under the id is
in the result of `getNetworks` before `deleteNetwork id` and not after it, the result is
one shorter than before, and `getNetwork id` then fails with NotFound. -/
theorem deleteNetwork_registered (d : driver) (id : String) (nw : Option network)
    (hd : d.reachable) (hid : id ≠ "") (hreg : d.networks.get? id = some nw) :
    nw ∈ d.getNetworks
    ∧ nw ∉ (d.deleteNetwork id).getNetworks
    ∧ (d.deleteNetwork id).getNetworks.length + 1 = d.getNetworks.length
    ∧ (d.deleteNetwork id).getNetwork id
        = (none, some (types.NotFoundErrorf ("network not found: " ++ id))) := by
  have hkeyed := driver.reachable_keyed d hd
  have hmem : id ∈ d.networks.keys := by
    by_contra hk
    rw [(GoMap.get?_eq_none_iff d.networks id).2 hk] at hreg
    cases hreg
  refine ⟨?_, ?_, ?_, ?_⟩
  · rw [driver.getNetworks_eq_values]
    exact GoMap.mem_values_of_get? _ hreg
  · rw [driver.getNetworks_eq_values]
    intro hin
    obtain ⟨j, hj, hjv⟩ := GoMap.mem_values_delete d.networks hin
    obtain ⟨n1, hn1, hid1⟩ := hkeyed id nw hreg
    obtain ⟨n2, hn2, hid2⟩ := hkeyed j nw hjv
    have : n1 = n2 := Option.some.inj (hn1.symm.trans hn2)
    exact hj (by rw [← hid2, ← this, hid1])
  · have := GoMap.len_delete_of_mem d.networks hmem
    simpa [driver.getNetworks_eq_values, GoMap.values, GoMap.len, driver.deleteNetwork]
      using this
  · have h : (d.deleteNetwork id).networks.get? id = none := GoMap.get?_delete_self _ _
    simp [driver.getNetwork, hid, h]

/-- Witness of amended C6: deleting `"net1"` from the registry that holds it. -/
theorem deleteNetwork_registered_witness :
    sampleDriver.reachable ∧ "net1" ≠ ""
    ∧ sampleDriver.networks.get? "net1" = some (some (sampleNet "net1" "ipvlan"))
    ∧ (some (sampleNet "net1" "ipvlan") ∈ sampleDriver.getNetworks
      ∧ some (sampleNet "net1" "ipvlan") ∉ (sampleDriver.deleteNetwork "net1").getNetworks
      ∧ (sampleDriver.deleteNetwork "net1").getNetworks.length + 1
          = sampleDriver.getNetworks.length
      ∧ (sampleDriver.deleteNetwork "net1").getNetwork "net1"
          = (none, some (types.NotFoundErrorf ("network not found: " ++ "net1")))) :=
  ⟨⟨[registryCall.add (sampleNet "net1" "ipvlan")], rfl⟩, by decide, by decide,
   deleteNetwork_registered sampleDriver "net1" (some (sampleNet "net1" "ipvlan"))
      ⟨[registryCall.add (sampleNet "net1" "ipvlan")], rfl⟩ (by decide) (by decide)⟩

/-! ## Network registry: listing -/

/-- C7: `getNetworks` returns one element per key of the registry (the keys are
pairwise distinct and the result has their number as length), element by element the
pointer stored under the corresponding key; the call leaves the registry as it was; and
the slice it returned keeps its content through any later sequence of `addNetwork` and
`deleteNetwork` calls, which act on the registry alone. -/
theorem getNetworks_snapshot (h : Heap) (cs : List registryCall) :
    h.drv.getNetworks.length = h.drv.networks.keys.length
    ∧ h.drv.networks.keys.Nodup
    ∧ h.drv.getNetworks.map some = h.drv.networks.keys.map h.drv.networks.get?
    ∧ h.getNetworks.2.drv = h.drv
    ∧ h.getNetworks.2.slice h.getNetworks.1 = some h.drv.getNetworks
    ∧ (h.getNetworks.2.calls cs).drv = h.drv.calls cs
    ∧ (h.getNetworks.2.calls cs).slice h.getNetworks.1 = some h.drv.getNetworks := by
  have hslice : h.getNetworks.2.slice h.getNetworks.1 = some h.drv.getNetworks := by
    simp [Heap.getNetworks, Heap.slice]
  refine ⟨?_, h.drv.networks.nodup, ?_, rfl, hslice, ?_, ?_⟩
  · simp [driver.getNetworks_eq_values, GoMap.values, GoMap.keys]
  · rw [driver.getNetworks_eq_values]
    exact GoMap.values_eq_keys_get? _
  · exact (Heap.calls_slices cs h.getNetworks.2).2
  · have := (Heap.calls_slices cs h.getNetworks.2).1
    simpa [Heap.slice, this] using hslice

/-! ## Endpoint registry -/

/-- C8: what the code does at the empty endpoint id. In every network state
`getEndpoint ""` returns the nil endpoint together with an error, and that error is the
one built by `fmt.Errorf`, with the text "endpoint id  not found": it carries no class, so
it is not of the InvalidParameter class (nor of the NotFound class). -/
theorem getEndpoint_empty_id (n : network) :
    n.getEndpoint "" = (none, some (fmt.Errorf "endpoint id  not found"))
    ∧ (n.getEndpoint "").2.map GoError.cls = some ErrorClass.unclassified
    ∧ (n.getEndpoint "").2.map GoError.cls ≠ some ErrorClass.InvalidParameter
    ∧ (n.getEndpoint "").2.map GoError.cls ≠ some ErrorClass.NotFound := by
  have h : (n.getEndpoint "").2.map GoError.cls = some ErrorClass.unclassified := rfl
  refine ⟨rfl, h, ?_, ?_⟩
  · rw [h]
    decide
  · rw [h]
    decide

/-- C9: for a non-empty endpoint id that is not registered in the network,
`getEndpoint` returns the nil endpoint and the nil error. -/
theorem getEndpoint_unregistered (n : network) (eid : String) (hid : eid ≠ "")
    (h : eid ∉ n.endpoints.keys) : n.getEndpoint eid = (none, none) := by
  have hget : n.endpoints.get? eid = none := (GoMap.get?_eq_none_iff _ _).2 h
  simp [network.getEndpoint, hid, hget]

/-- Witness of C9: looking up `"ep1"` in a network without endpoints. -/
theorem getEndpoint_unregistered_witness :
    "ep1" ≠ "" ∧ "ep1" ∉ (sampleNet "net1" "ipvlan").endpoints.keys
    ∧ (sampleNet "net1" "ipvlan").getEndpoint "ep1" = (none, none) :=
  ⟨by decide, by decide,
   getEndpoint_unregistered (sampleNet "net1" "ipvlan") "ep1" (by decide) (by decide)⟩

/-- C10: after `addEndpoint ep` with `ep.id` non-empty, `getEndpoint ep.id` returns
`ep` and no error; after `deleteEndpoint ep.id` on top of that, it returns the nil
endpoint and no error. -/
theorem endpoint_lifecycle (n : network) (ep : endpoint) (hid : ep.id ≠ "") :
    (n.addEndpoint ep).getEndpoint ep.id = (some ep, none)
    ∧ ((n.addEndpoint ep).deleteEndpoint ep.id).getEndpoint ep.id = (none, none) := by
  have h1 : (n.addEndpoint ep).endpoints.get? ep.id = some (some ep) :=
    GoMap.get?_set_self _ _ _
  have h2 : ((n.addEndpoint ep).deleteEndpoint ep.id).endpoints.get? ep.id = none :=
    GoMap.get?_delete_self _ _
  constructor
  · simp [network.getEndpoint, hid, h1]
  · simp [network.getEndpoint, hid, h2]

/-- Witness of C10: endpoint `"ep1"` joining and leaving `"net1"`. -/
theorem endpoint_lifecycle_witness :
    (sampleEp "ep1" "192.168.0.1").id ≠ ""
    ∧ ((sampleNet "net1" "ipvlan").addEndpoint (sampleEp "ep1" "192.168.0.1")).getEndpoint
        (sampleEp "ep1" "192.168.0.1").id = (some (sampleEp "ep1" "192.168.0.1"), none)
    ∧ (((sampleNet "net1" "ipvlan").addEndpoint (sampleEp "ep1" "192.168.0.1")).deleteEndpoint
        (sampleEp "ep1" "192.168.0.1").id).getEndpoint (sampleEp "ep1" "192.168.0.1").id
        = (none, none) :=
  ⟨by decide,
   endpoint_lifecycle (sampleNet "net1" "ipvlan") (sampleEp "ep1" "192.168.0.1") (by decide)⟩

end ipvlan

namespace ipvlan

/-! ## Id validation -/

/-- C11: what `validateID` does. It returns an error exactly when one of the two ids is
empty, and the network id is tested first, so two empty ids give the invalid-network-id
error. Both errors are built by `errors.New`: they carry no class, so they are not of the
NotFound class, and not of the InvalidParameter class either. -/
theorem validateID_errors (nid eid : String) :
    (validateID nid eid ≠ none ↔ (nid = "" ∨ eid = ""))
    ∧ (nid = "" → validateID nid eid = some (errors.New "invalid network id"))
    ∧ (nid ≠ "" → eid = "" → validateID nid eid = some (errors.New "invalid endpoint id"))
    ∧ validateID "" "" = some (errors.New "invalid network id")
    ∧ (∀ e, validateID nid eid = some e →
        e.cls = ErrorClass.unclassified ∧ e.cls ≠ ErrorClass.InvalidParameter
          ∧ e.cls ≠ ErrorClass.NotFound) := by
  refine ⟨?_, ?_, ?_, rfl, ?_⟩
  · by_cases h1 : nid = ""
    · simp [validateID, h1]
    · by_cases h2 : eid = ""
      · simp [validateID, h1, h2]
      · simp [validateID, h1, h2]
  · intro h1
    simp [validateID, h1]
  · intro h1 h2
    simp [validateID, h1, h2]
  · intro e he
    have hcls : e.cls = ErrorClass.unclassified := by
      by_cases h1 : nid = ""
      · have : errors.New "invalid network id" = e := by simpa [validateID, h1] using he
        rw [← this]
        rfl
      · by_cases h2 : eid = ""
        · have : errors.New "invalid endpoint id" = e := by
            simpa [validateID, h1, h2] using he
          rw [← this]
          rfl
        · simp [validateID, h1, h2] at he
    rw [hcls]
    exact ⟨rfl, by decide, by decide⟩

/-! ## Networks with endpoints -/

/-- C12, as stated, fails: network `"net1"` is registered with endpoint `"ep1"` in its
endpoint set, and `deleteNetwork "net1"` removes it from the registry. -/
theorem deleteNetwork_with_endpoint_counterexample :
    liveDriver.networks.get? "net1" = some (some liveNet)
    ∧ liveNet.endpoints.len = 1
    ∧ (liveNet.getEndpoint "ep1").1 = some (sampleEp "ep1" "192.168.0.1")
    ∧ (liveDriver.deleteNetwork "net1").networks.get? "net1" = none
    ∧ (liveDriver.deleteNetwork "net1").getNetworks = [] := by
  decide

/-- C12, amended: `deleteNetwork` does not look at the endpoint set. For every registry
state and every registered network, also one whose endpoint set is not empty,
`deleteNetwork` of its id removes it from the registry: the id is no longer a key and
`getNetworks` returns one network less. -/
theorem deleteNetwork_ignores_endpoints (d : driver) (n : network)
    (hreg : d.networks.get? n.id = some (some n)) (_hlive : n.endpoints.len ≠ 0) :
    (d.deleteNetwork n.id).networks.get? n.id = none
    ∧ n.id ∉ (d.deleteNetwork n.id).networks.keys
    ∧ (d.deleteNetwork n.id).getNetworks.length + 1 = d.getNetworks.length := by
  have hmem : n.id ∈ d.networks.keys := by
    by_contra hk
    rw [(GoMap.get?_eq_none_iff d.networks n.id).2 hk] at hreg
    cases hreg
  have h1 : (d.deleteNetwork n.id).networks.get? n.id = none := GoMap.get?_delete_self _ _
  refine ⟨h1, (GoMap.get?_eq_none_iff _ _).1 h1, ?_⟩
  have := GoMap.len_delete_of_mem d.networks hmem
  simpa [driver.getNetworks_eq_values, GoMap.values, GoMap.len, driver.deleteNetwork]
    using this

/-- Witness of amended C12: `"net1"` with endpoint `"ep1"`, registered and then deleted. -/
theorem deleteNetwork_ignores_endpoints_witness :
    liveDriver.networks.get? liveNet.id = some (some liveNet)
    ∧ liveNet.endpoints.len ≠ 0
    ∧ ((liveDriver.deleteNetwork liveNet.id).networks.get? liveNet.id = none
      ∧ liveNet.id ∉ (liveDriver.deleteNetwork liveNet.id).networks.keys
      ∧ (liveDriver.deleteNetwork liveNet.id).getNetworks.length + 1
          = liveDriver.getNetworks.length) :=
  ⟨by decide, by decide,
   deleteNetwork_ignores_endpoints liveDriver liveNet (by decide) (by decide)⟩

end ipvlan

/-! ## Lemmas on the resolver model -/

namespace libnetwork

theorem trimDot_append_dot (q : String) : trimDot (q ++ ".") = q := by
  have h : (q ++ ".").data.reverse = Char.ofNat 46 :: q.data.reverse := by
    simp [String.data_append]
  simp [trimDot, h]

theorem mem_hits {st : Store} {name : String} {rec : svcRecord} :
    rec ∈ st.hits name ↔ rec ∈ st ∧ rec.name = lowerName name := by
  simp [Store.hits, List.mem_filter]

theorem hits_congr (st : Store) {q name : String} (h : lowerName q = lowerName name) :
    st.hits q = st.hits name := by
  simp [Store.hits, h]

theorem Resolve_congr (st : Store) {q name : String} (h : lowerName q = lowerName name)
    (t : recordType) : Resolve st q t = Resolve st name t := by
  simp [Resolve, hits_congr st h]

theorem ResolveName_congr (stores : List Store) {q name : String}
    (h : lowerName q = lowerName name) (t : recordType) :
    ResolveName stores q t = ResolveName stores name t := by
  simp [ResolveName, Resolve_congr _ h]

/-- A store finds a name exactly when it holds a record under its lower-cased form. -/
theorem Resolve_found_iff (st : Store) (name : String) (t : recordType) :
    (Resolve st name t).2 = true ↔ ∃ rec ∈ st, rec.name = lowerName name := by
  constructor
  · intro h
    have hne : st.hits name ≠ [] := by
      intro hnil
      simp [Resolve, hnil] at h
    obtain ⟨rec, hrec⟩ := List.exists_mem_of_ne_nil _ hne
    exact ⟨rec, (mem_hits.1 hrec).1, (mem_hits.1 hrec).2⟩
  · rintro ⟨rec, hrec, hname⟩
    have hmem : rec ∈ st.hits name := mem_hits.2 ⟨hrec, hname⟩
    have hne : st.hits name ≠ [] := List.ne_nil_of_mem hmem
    simp [Resolve, hne]

/-- The sandbox finds a name exactly when one of its networks holds a record for it. -/
theorem ResolveName_found_iff (stores : List Store) (name : String) (t : recordType) :
    (ResolveName stores name t).2 = true
      ↔ ∃ st ∈ stores, ∃ rec ∈ st, rec.name = lowerName name := by
  simp only [ResolveName, List.any_eq_true]
  constructor
  · rintro ⟨st, hst, h⟩
    exact ⟨st, hst, (Resolve_found_iff st name t).1 h⟩
  · rintro ⟨st, hst, h⟩
    exact ⟨st, hst, (Resolve_found_iff st name t).2 h⟩

/-- The IPv4 addresses a store returns are those of its records under the name. -/
theorem mem_Resolve_A (st : Store) (name : String) (a : IP) :
    a ∈ (Resolve st name recordType.A).1
      ↔ ∃ rec ∈ st, rec.name = lowerName name ∧ rec.ipv4 = a ∧ a ≠ [] := by
  simp only [Resolve, List.mem_filter, List.mem_map, decide_eq_true_eq]
  constructor
  · rintro ⟨⟨rec, hrec, rfl⟩, hne⟩
    exact ⟨rec, (mem_hits.1 hrec).1, (mem_hits.1 hrec).2, rfl, hne⟩
  · rintro ⟨rec, hrec, hname, rfl, hne⟩
    exact ⟨⟨rec, mem_hits.2 ⟨hrec, hname⟩, rfl⟩, hne⟩

/-- The IPv6 addresses a store returns are those of its records under the name. -/
theorem mem_Resolve_AAAA (st : Store) (name : String) (a : IP) :
    a ∈ (Resolve st name recordType.AAAA).1
      ↔ ∃ rec ∈ st, rec.name = lowerName name ∧ rec.ipv6 = a ∧ a ≠ [] := by
  simp only [Resolve, List.mem_filter, List.mem_map, decide_eq_true_eq]
  constructor
  · rintro ⟨⟨rec, hrec, rfl⟩, hne⟩
    exact ⟨rec, (mem_hits.1 hrec).1, (mem_hits.1 hrec).2, rfl, hne⟩
  · rintro ⟨rec, hrec, hname, rfl, hne⟩
    exact ⟨⟨rec, mem_hits.2 ⟨hrec, hname⟩, rfl⟩, hne⟩

theorem mem_ResolveName_A (stores : List Store) (name : String) (a : IP) :
    a ∈ (ResolveName stores name recordType.A).1
      ↔ ∃ st ∈ stores, ∃ rec ∈ st, rec.name = lowerName name ∧ rec.ipv4 = a ∧ a ≠ [] := by
  simp only [ResolveName, List.mem_flatten, List.mem_map]
  constructor
  · rintro ⟨l, ⟨st, hst, rfl⟩, ha⟩
    exact ⟨st, hst, (mem_Resolve_A st name a).1 ha⟩
  · rintro ⟨st, hst, h⟩
    exact ⟨_, ⟨st, hst, rfl⟩, (mem_Resolve_A st name a).2 h⟩

/-- A known name is answered locally, whatever the upstream and the proxying flag. -/
theorem serveDNS_of_localAnswer (r : Resolver) (up : Upstream) (q : Question)
    (resp : Response) (h : r.localAnswer q = some resp) :
    r.serveDNS up { questions := [q] } = (resp, []) := by
  simp [Resolver.serveDNS, h]

/-- An unknown name has no local answer. -/
theorem localAnswer_of_not_knows (r : Resolver) (q : Question)
    (h : ¬ r.knows (trimDot q.name)) : r.localAnswer q = none := by
  have hf : (ResolveName r.backend (trimDot q.name) q.qtype).2 = false := by
    cases hb : (ResolveName r.backend (trimDot q.name) q.qtype).2 with
    | false => rfl
    | true => exact absurd ((ResolveName_found_iff _ _ _).1 hb) h
  simp [Resolver.localAnswer, hf]

/-- A known name has a local answer with code Success. -/
theorem localAnswer_of_knows (r : Resolver) (q : Question)
    (h : r.knows (trimDot q.name)) :
    r.localAnswer q = some
      { rcode := Rcode.RcodeSuccess,
        answers :=
          match q.qtype with
          | recordType.A => (ResolveName r.backend (trimDot q.name) q.qtype).1.map RR.A
          | recordType.AAAA =>
            (ResolveName r.backend (trimDot q.name) q.qtype).1.map RR.AAAA
          | _ => [] } := by
  have hf : (ResolveName r.backend (trimDot q.name) q.qtype).2 = true :=
    (ResolveName_found_iff _ _ _).2 h
  simp [Resolver.localAnswer, hf]

/-- An attempt gives no accepted reply exactly when it meets a timeout or transport error
or is answered with SERVFAIL. -/
theorem accepted_eq_none_iff (o : Option Response) :
    accepted o = none
      ↔ (o = none ∨ ∃ resp, o = some resp ∧ resp.rcode = Rcode.RcodeServerFailure) := by
  cases o with
  | none => simp [accepted]
  | some resp =>
    by_cases h : resp.rcode = Rcode.RcodeServerFailure
    · simp [accepted, h]
    · simp [accepted, h]

/-- The accepted reply of an attempt is the reply received, and its code is not SERVFAIL. -/
theorem accepted_eq_some_iff (o : Option Response) (resp : Response) :
    accepted o = some resp ↔ (o = some resp ∧ resp.rcode ≠ Rcode.RcodeServerFailure) := by
  cases o with
  | none => simp [accepted]
  | some r =>
    by_cases h : r.rcode = Rcode.RcodeServerFailure
    · simp only [accepted, h, if_true, Option.some.injEq]
      constructor
      · intro h'
        cases h'
      · rintro ⟨h1, h2⟩
        exact absurd (h1 ▸ h) h2
    · simp only [accepted, h, if_false, Option.some.injEq]
      constructor
      · intro h'
        exact ⟨h', h' ▸ h⟩
      · rintro ⟨h1, _⟩
        exact h1

theorem forwardFrom_hit (up : Upstream) (q : Question) (servers : List extDNSEntry) :
    ∀ (n i : Nat) (s : extDNSEntry) (resp : Response),
      (∀ j s', j < i → servers[j]? = some s' → accepted (up (n + j) s' q) = none) →
      servers[i]? = some s → accepted (up (n + i) s q) = some resp →
      forwardFrom up q n servers = (resp, servers.take (i + 1)) := by
  induction servers with
  | nil =>
    intro n i s resp _ hs _
    simp at hs
  | cons a rest ih =>
    intro n i s resp hfail hs hok
    cases i with
    | zero =>
      have ha : a = s := by simpa using hs
      subst ha
      have hok2 : accepted (up n a q) = some resp := by simpa using hok
      simp [forwardFrom, hok2]
    | succ i =>
      have h0 : accepted (up n a q) = none := by
        have := hfail 0 a (Nat.succ_pos i) (by simp)
        simpa using this
      have hs2 : rest[i]? = some s := by simpa using hs
      have hok2 : accepted (up (n + 1 + i) s q) = some resp := by
        have : n + 1 + i = n + (i + 1) := by omega
        rw [this]
        exact hok
      have hfail2 : ∀ j s', j < i → rest[j]? = some s' →
          accepted (up (n + 1 + j) s' q) = none := by
        intro j s' hj hjs
        have h := hfail (j + 1) s' (Nat.succ_lt_succ hj) (by simpa using hjs)
        have e : n + 1 + j = n + (j + 1) := by omega
        rw [e]
        exact h
      have hrec := ih (n + 1) i s resp hfail2 hs2 hok2
      simp [forwardFrom, h0, hrec]

theorem forwardFrom_all_fail (up : Upstream) (q : Question) (servers : List extDNSEntry) :
    ∀ n : Nat, (∀ j s', servers[j]? = some s' → accepted (up (n + j) s' q) = none) →
      forwardFrom up q n servers = (servFail, servers) := by
  induction servers with
  | nil =>
    intro n _
    rfl
  | cons a rest ih =>
    intro n hfail
    have h0 : accepted (up n a q) = none := by
      have := hfail 0 a (by simp)
      simpa using this
    have hfail2 : ∀ j s', rest[j]? = some s' → accepted (up (n + 1 + j) s' q) = none := by
      intro j s' hjs
      have h := hfail (j + 1) s' (by simpa using hjs)
      have e : n + 1 + j = n + (j + 1) := by omega
      rw [e]
      exact h
    simp [forwardFrom, h0, ih (n + 1) hfail2]

/-- The forwarder either relays the first reply it accepts, having tried the servers up to
the one that sent it, or has tried the whole list in vain and answers SERVFAIL. -/
theorem forwardFrom_cases (up : Upstream) (q : Question) (servers : List extDNSEntry) :
    ∀ n : Nat,
      (∃ i s resp, servers[i]? = some s ∧ accepted (up (n + i) s q) = some resp
          ∧ (∀ j s', j < i → servers[j]? = some s' → accepted (up (n + j) s' q) = none)
          ∧ forwardFrom up q n servers = (resp, servers.take (i + 1)))
      ∨ ((∀ j s', servers[j]? = some s' → accepted (up (n + j) s' q) = none)
          ∧ forwardFrom up q n servers = (servFail, servers)) := by
  induction servers with
  | nil =>
    intro n
    right
    exact ⟨fun j s' h => by simp at h, rfl⟩
  | cons a rest ih =>
    intro n
    cases h0 : accepted (up n a q) with
    | some resp =>
      left
      refine ⟨0, a, resp, by simp, by simpa using h0, ?_, ?_⟩
      · intro j s' hj
        exact absurd hj (Nat.not_lt_zero j)
      · simp [forwardFrom, h0]
    | none =>
      rcases ih (n + 1) with ⟨i, s, resp, hs, hok, hfail, hres⟩ | ⟨hfail, hres⟩
      · left
        refine ⟨i + 1, s, resp, by simpa using hs, ?_, ?_, ?_⟩
        · have e : n + (i + 1) = n + 1 + i := by omega
          rw [e]
          exact hok
        · intro j s' hj hjs
          cases j with
          | zero =>
            have : a = s' := by simpa using hjs
            rw [← this]
            simpa using h0
          | succ j =>
            have e : n + (j + 1) = n + 1 + j := by omega
            rw [e]
            exact hfail j s' (Nat.lt_of_succ_lt_succ hj) (by simpa using hjs)
        · simp [forwardFrom, h0, hres]
      · right
        refine ⟨?_, ?_⟩
        · intro j s' hjs
          cases j with
          | zero =>
            have : a = s' := by simpa using hjs
            rw [← this]
            simpa using h0
          | succ j =>
            have e : n + (j + 1) = n + 1 + j := by omega
            rw [e]
            exact hfail j s' (by simpa using hjs)
        · simp [forwardFrom, h0, hres]

/-- With proxying enabled, a query for an unknown name is handed to the forwarder. -/
theorem serveDNS_forwards (r : Resolver) (up : Upstream) (q : Question)
    (hp : r.proxyDNS = true) (hmiss : ¬ r.knows (trimDot q.name)) :
    r.serveDNS up { questions := [q] } = forwardFrom up q 0 r.extDNSList := by
  have hnone := localAnswer_of_not_knows r q hmiss
  simp [Resolver.serveDNS, hnone, hp, Forward]

theorem length_AddRecords (calls : List svcRecord) :
    ∀ st : Store, (AddRecords st calls).length = st.length + calls.length := by
  induction calls with
  | nil => intro st; rfl
  | cons c cs ih =>
    intro st
    simp only [AddRecords, ih, AddRecord, List.length_append, List.length_cons,
      List.length_nil]
    omega

theorem mem_AddRecords_of_mem (calls : List svcRecord) :
    ∀ (st : Store) (rec : svcRecord), rec ∈ st → rec ∈ AddRecords st calls := by
  induction calls with
  | nil => intro st rec h; exact h
  | cons c cs ih =>
    intro st rec h
    exact ih _ rec (List.mem_append_left _ h)

theorem mem_AddRecords_of_call (calls : List svcRecord) :
    ∀ (st : Store) (c : svcRecord), c ∈ calls →
      { c with name := lowerName c.name } ∈ AddRecords st calls := by
  induction calls with
  | nil => intro st c h; simp at h
  | cons c0 cs ih =>
    intro st c h
    rcases List.mem_cons.1 h with h1 | h1
    · subst h1
      simp only [AddRecords]
      apply mem_AddRecords_of_mem
      exact List.mem_append_right _ (List.mem_singleton.2 rfl)
    · exact ih _ c h1

end libnetwork

namespace libnetwork

/-! ## Local answers -/

/-- C13: a name registered in a network the sandbox has joined, with an IPv4 address, and
queried for type A in any letter case with the final dot, is answered locally with code
Success; the answers are A records only, and their addresses are exactly the IPv4
addresses registered under that name. In the state of the test, the queries `"name1."` and
`"NaMe1."` both get exactly one answer, the A record 192.168.0.1. -/
theorem serveDNS_A_query (r : Resolver) (up : Upstream) (name q : String) (st : Store)
    (rec : svcRecord) (hst : st ∈ r.backend) (hrec : rec ∈ st)
    (hname : rec.name = lowerName name) (hip : rec.ipv4 ≠ [])
    (hq : lowerName q = lowerName name) :
    (r.serveDNS up (SetQuestion (q ++ ".") recordType.A)).1.rcode = Rcode.RcodeSuccess
    ∧ (r.serveDNS up (SetQuestion (q ++ ".") recordType.A)).2 = []
    ∧ (∀ rr ∈ (r.serveDNS up (SetQuestion (q ++ ".") recordType.A)).1.answers,
        ∃ a, rr = RR.A a)
    ∧ (∀ a, RR.A a ∈ (r.serveDNS up (SetQuestion (q ++ ".") recordType.A)).1.answers
        ↔ ∃ st' ∈ r.backend, ∃ rec' ∈ st',
            rec'.name = lowerName name ∧ rec'.ipv4 = a ∧ a ≠ [])
    ∧ RR.A rec.ipv4 ∈ (r.serveDNS up (SetQuestion (q ++ ".") recordType.A)).1.answers
    ∧ testResolver.serveDNS up (SetQuestion "name1." recordType.A)
        = ({ rcode := Rcode.RcodeSuccess, answers := [RR.A [192, 168, 0, 1]] }, [])
    ∧ testResolver.serveDNS up (SetQuestion "NaMe1." recordType.A)
        = ({ rcode := Rcode.RcodeSuccess, answers := [RR.A [192, 168, 0, 1]] }, []) := by
  have hknows : r.knows (trimDot (q ++ ".")) := by
    rw [trimDot_append_dot]
    exact ⟨st, hst, rec, hrec, hname.trans hq.symm⟩
  have hres : r.serveDNS up (SetQuestion (q ++ ".") recordType.A)
      = ({ rcode := Rcode.RcodeSuccess,
           answers := (ResolveName r.backend name recordType.A).1.map RR.A }, []) := by
    have h := localAnswer_of_knows r { name := q ++ ".", qtype := recordType.A } hknows
    simp only [trimDot_append_dot, ResolveName_congr r.backend hq] at h
    exact serveDNS_of_localAnswer r up _ _ h
  have hmem : ∀ a, RR.A a ∈ (ResolveName r.backend name recordType.A).1.map RR.A
      ↔ ∃ st' ∈ r.backend, ∃ rec' ∈ st',
          rec'.name = lowerName name ∧ rec'.ipv4 = a ∧ a ≠ [] := by
    intro a
    rw [← mem_ResolveName_A]
    simp [List.mem_map]
  rw [hres]
  refine ⟨rfl, rfl, ?_, hmem, ?_, ?_, ?_⟩
  · intro rr hrr
    obtain ⟨a, _, ha⟩ := List.mem_map.1 hrr
    exact ⟨a, ha.symm⟩
  · exact (hmem rec.ipv4).2 ⟨st, hst, rec, hrec, hname, rfl, hip⟩
  · exact serveDNS_of_localAnswer testResolver up
      { name := "name1.", qtype := recordType.A } _ (by decide)
  · exact serveDNS_of_localAnswer testResolver up
      { name := "NaMe1.", qtype := recordType.A } _ (by decide)

/-- Witness of C13: the record of the test, queried as `"NaMe1."`. -/
theorem serveDNS_A_query_witness :
    testStore ∈ testResolver.backend
    ∧ lowerName "NaMe1" = lowerName "name1"
    ∧ (testResolver.serveDNS allFail (SetQuestion ("NaMe1" ++ ".") recordType.A)).1.rcode
        = Rcode.RcodeSuccess
    ∧ RR.A [192, 168, 0, 1]
        ∈ (testResolver.serveDNS allFail (SetQuestion ("NaMe1" ++ ".") recordType.A)).1.answers :=
  ⟨by decide, by decide,
   (serveDNS_A_query testResolver allFail "name1" "NaMe1" testStore
      { name := "name1", serviceName := "", serviceID := "svc1", ipv4 := [192, 168, 0, 1],
        ipv6 := [], isAnycast := true, taskName := "test" }
      (by decide) (by decide) (by decide) (by decide) (by decide)).1,
   (serveDNS_A_query testResolver allFail "name1" "NaMe1" testStore
      { name := "name1", serviceName := "", serviceID := "svc1", ipv4 := [192, 168, 0, 1],
        ipv6 := [], isAnycast := true, taskName := "test" }
      (by decide) (by decide) (by decide) (by decide) (by decide)).2.2.2.2.1⟩

/-- C14: a name registered in a network the sandbox has joined (in particular one
registered with an IPv4 address only) and queried for type MX is answered locally with
code Success and no answer record; no external server is tried, and the proxying flag
plays no part, so the answer is the same with forwarding disabled. In the state of the
test the MX query for `"name1."` gets Success and zero answers. -/
theorem serveDNS_MX_query (r : Resolver) (up : Upstream) (name q : String) (st : Store)
    (rec : svcRecord) (hst : st ∈ r.backend) (hrec : rec ∈ st)
    (hname : rec.name = lowerName name) (hq : lowerName q = lowerName name) :
    r.serveDNS up (SetQuestion (q ++ ".") recordType.MX)
        = ({ rcode := Rcode.RcodeSuccess, answers := [] }, [])
    ∧ ({ r with proxyDNS := false }).serveDNS up (SetQuestion (q ++ ".") recordType.MX)
        = ({ rcode := Rcode.RcodeSuccess, answers := [] }, [])
    ∧ testResolver.proxyDNS = false
    ∧ testResolver.serveDNS up (SetQuestion "name1." recordType.MX)
        = ({ rcode := Rcode.RcodeSuccess, answers := [] }, []) := by
  have key : ∀ r' : Resolver, r'.backend = r.backend →
      r'.serveDNS up (SetQuestion (q ++ ".") recordType.MX)
        = ({ rcode := Rcode.RcodeSuccess, answers := [] }, []) := by
    intro r' hb
    have hknows : r'.knows (trimDot (q ++ ".")) := by
      rw [trimDot_append_dot]
      exact ⟨st, hb ▸ hst, rec, hrec, hname.trans hq.symm⟩
    have h := localAnswer_of_knows r' { name := q ++ ".", qtype := recordType.MX } hknows
    exact serveDNS_of_localAnswer r' up _ _ h
  refine ⟨key r rfl, key _ rfl, rfl, ?_⟩
  exact serveDNS_of_localAnswer testResolver up
    { name := "name1.", qtype := recordType.MX } _ (by decide)

/-- Witness of C14: the record of the test, queried for MX as `"name1."`. -/
theorem serveDNS_MX_query_witness :
    testStore ∈ testResolver.backend
    ∧ testResolver.serveDNS allFail (SetQuestion ("name1" ++ ".") recordType.MX)
        = ({ rcode := Rcode.RcodeSuccess, answers := [] }, []) :=
  ⟨by decide,
   (serveDNS_MX_query testResolver allFail "name1" "name1" testStore
      { name := "name1", serviceName := "", serviceID := "svc1", ipv4 := [192, 168, 0, 1],
        ipv6 := [], isAnycast := true, taskName := "test" }
      (by decide) (by decide) (by decide) rfl).1⟩

/-- C15: with forwarding disabled, a query of any type for a name that no network joined
by the sandbox has registered is answered with SERVFAIL (so neither NXDOMAIN nor Success),
no answer record, and no external server is tried. In the state of the test the MX query
for `"nonexistent."` gets SERVFAIL. -/
theorem serveDNS_unknown_no_proxy (r : Resolver) (up : Upstream) (q : String)
    (t : recordType) (hp : r.proxyDNS = false) (hmiss : ¬ r.knows q) :
    r.serveDNS up (SetQuestion (q ++ ".") t) = (servFail, [])
    ∧ (r.serveDNS up (SetQuestion (q ++ ".") t)).1.rcode = Rcode.RcodeServerFailure
    ∧ (r.serveDNS up (SetQuestion (q ++ ".") t)).1.rcode ≠ Rcode.RcodeNameError
    ∧ (r.serveDNS up (SetQuestion (q ++ ".") t)).1.rcode ≠ Rcode.RcodeSuccess
    ∧ (testResolver.serveDNS up (SetQuestion "nonexistent." recordType.MX)).1.rcode
        = Rcode.RcodeServerFailure := by
  have key : ∀ (r' : Resolver) (q' : String) (t' : recordType), r'.proxyDNS = false →
      ¬ r'.knows q' → r'.serveDNS up (SetQuestion (q' ++ ".") t') = (servFail, []) := by
    intro r' q' t' hp' hmiss'
    have hnone : r'.localAnswer { name := q' ++ ".", qtype := t' } = none := by
      apply localAnswer_of_not_knows
      simpa [trimDot_append_dot] using hmiss'
    simp [Resolver.serveDNS, SetQuestion, hnone, hp']
  have hres := key r q t hp hmiss
  rw [hres]
  refine ⟨rfl, rfl, by decide, by decide, ?_⟩
  have := key testResolver "nonexistent" recordType.MX rfl (by decide)
  rw [show ("nonexistent." : String) = "nonexistent" ++ "." from by decide, this]
  rfl

/-- Witness of C15: the resolver of the test and the name `"nonexistent"`. -/
theorem serveDNS_unknown_no_proxy_witness :
    testResolver.proxyDNS = false ∧ ¬ testResolver.knows "nonexistent"
    ∧ testResolver.serveDNS allFail (SetQuestion ("nonexistent" ++ ".") recordType.A)
        = (servFail, []) :=
  ⟨rfl, by decide,
   (serveDNS_unknown_no_proxy testResolver allFail "nonexistent" recordType.A rfl
      (by decide)).1⟩

end libnetwork

namespace libnetwork

/-! ## Known names without an address of the requested family -/

/-- C16: for a name the store knows, `Resolve` for AAAA returns found with zero addresses
when every record of the name lacks an IPv6 address, and likewise for A when every record
lacks an IPv4 address; for a name the store holds no record of, `Resolve` returns not
found, for every type. At the resolver the first case is answered with Success and zero
answers, without any external server being tried. -/
theorem Resolve_known_without_address (st : Store) (name : String)
    (hreg : ∃ rec ∈ st, rec.name = lowerName name) :
    ((∀ rec ∈ st, rec.name = lowerName name → rec.ipv6 = []) →
        Resolve st name recordType.AAAA = ([], true))
    ∧ ((∀ rec ∈ st, rec.name = lowerName name → rec.ipv4 = []) →
        Resolve st name recordType.A = ([], true))
    ∧ (∀ (unknown : String) (t : recordType),
        (∀ rec ∈ st, rec.name ≠ lowerName unknown) → Resolve st unknown t = ([], false))
    ∧ (∀ (r : Resolver) (up : Upstream), st ∈ r.backend →
        (∀ st' ∈ r.backend, ∀ rec ∈ st', rec.name = lowerName name → rec.ipv6 = []) →
        r.serveDNS up (SetQuestion (name ++ ".") recordType.AAAA)
          = ({ rcode := Rcode.RcodeSuccess, answers := [] }, []))
    ∧ (∀ (r : Resolver) (up : Upstream), st ∈ r.backend →
        (∀ st' ∈ r.backend, ∀ rec ∈ st', rec.name = lowerName name → rec.ipv4 = []) →
        r.serveDNS up (SetQuestion (name ++ ".") recordType.A)
          = ({ rcode := Rcode.RcodeSuccess, answers := [] }, [])) := by
  have hfound : ∀ t, (Resolve st name t).2 = true := fun t =>
    (Resolve_found_iff st name t).2 hreg
  refine ⟨?_, ?_, ?_, ?_, ?_⟩
  · intro h6
    have haddr : (Resolve st name recordType.AAAA).1 = [] := by
      apply List.eq_nil_iff_forall_not_mem.2
      intro a ha
      obtain ⟨rec, hrec, hname, hip, hne⟩ := (mem_Resolve_AAAA st name a).1 ha
      exact hne (hip ▸ h6 rec hrec hname)
    exact Prod.ext haddr (hfound _)
  · intro h4
    have haddr : (Resolve st name recordType.A).1 = [] := by
      apply List.eq_nil_iff_forall_not_mem.2
      intro a ha
      obtain ⟨rec, hrec, hname, hip, hne⟩ := (mem_Resolve_A st name a).1 ha
      exact hne (hip ▸ h4 rec hrec hname)
    exact Prod.ext haddr (hfound _)
  · intro unknown t hmiss
    have hhits : st.hits unknown = [] := by
      apply List.eq_nil_iff_forall_not_mem.2
      intro rec hrec
      exact hmiss rec (mem_hits.1 hrec).1 (mem_hits.1 hrec).2
    cases t <;> simp [Resolve, hhits]
  · intro r up hst h6
    have hknows : r.knows (trimDot (name ++ ".")) := by
      rw [trimDot_append_dot]
      obtain ⟨rec, hrec, hname⟩ := hreg
      exact ⟨st, hst, rec, hrec, hname⟩
    have haddr : (ResolveName r.backend name recordType.AAAA).1 = [] := by
      apply List.eq_nil_iff_forall_not_mem.2
      intro a ha
      simp only [ResolveName, List.mem_flatten, List.mem_map] at ha
      obtain ⟨l, ⟨st', hst', rfl⟩, hmem⟩ := ha
      obtain ⟨rec, hrec, hname, hip, hne⟩ := (mem_Resolve_AAAA st' name a).1 hmem
      exact hne (hip ▸ h6 st' hst' rec hrec hname)
    have h := localAnswer_of_knows r { name := name ++ ".", qtype := recordType.AAAA } hknows
    simp only [trimDot_append_dot, haddr, List.map_nil] at h
    exact serveDNS_of_localAnswer r up _ _ h
  · intro r up hst h4
    have hknows : r.knows (trimDot (name ++ ".")) := by
      rw [trimDot_append_dot]
      obtain ⟨rec, hrec, hname⟩ := hreg
      exact ⟨st, hst, rec, hrec, hname⟩
    have haddr : (ResolveName r.backend name recordType.A).1 = [] := by
      apply List.eq_nil_iff_forall_not_mem.2
      intro a ha
      obtain ⟨st', hst', rec, hrec, hname, hip, hne⟩ := (mem_ResolveName_A _ _ _).1 ha
      exact hne (hip ▸ h4 st' hst' rec hrec hname)
    have h := localAnswer_of_knows r { name := name ++ ".", qtype := recordType.A } hknows
    simp only [trimDot_append_dot, haddr, List.map_nil] at h
    exact serveDNS_of_localAnswer r up _ _ h

/-- Witness of C16: `"name1"` of the test has an IPv4 address only, `"nonexistent"` is
unknown. -/
theorem Resolve_known_without_address_witness :
    (∃ rec ∈ testStore, rec.name = lowerName "name1")
    ∧ Resolve testStore "name1" recordType.AAAA = ([], true)
    ∧ Resolve testStore "nonexistent" recordType.AAAA = ([], false)
    ∧ testResolver.serveDNS allFail (SetQuestion ("name1" ++ ".") recordType.AAAA)
        = ({ rcode := Rcode.RcodeSuccess, answers := [] }, [])
    ∧ Resolve v6Store "name6" recordType.A = ([], true) :=
  ⟨by decide,
   (Resolve_known_without_address testStore "name1" (by decide)).1 (by decide),
   (Resolve_known_without_address testStore "name1" (by decide)).2.2.1 "nonexistent"
      recordType.AAAA (by decide),
   (Resolve_known_without_address testStore "name1" (by decide)).2.2.2.1 testResolver allFail
      (by decide) (by decide),
   (Resolve_known_without_address v6Store "name6" (by decide)).2.1 (by decide)⟩

end libnetwork

namespace libnetwork

/-! ## Forwarding -/

/-- C17: with forwarding enabled and a query for a name unknown locally, the external
servers are tried in the order of the configured list, one after the other, up to the
first whose answer is accepted. Counting from 0: when the attempts at the servers before
position `i` fail (a timeout or transport error, or a SERVFAIL reply) and the server at
position `i` sends `resp`, which is accepted, the servers tried are the first `i + 1` of
the list, in list order, so `i + 1` attempts are made, and the response is `resp`. In the
state of the test (the same entry twice, the upstream answering SERVFAIL once and Success
afterwards) two attempts are made and the response is the Success of the second. -/
theorem serveDNS_forward_in_order (r : Resolver) (up : Upstream) (q : Question) (i : Nat)
    (s : extDNSEntry) (resp : Response) (hp : r.proxyDNS = true)
    (hmiss : ¬ r.knows (trimDot q.name))
    (hfail : ∀ j s', j < i → r.extDNSList[j]? = some s' →
      (up j s' q = none
        ∨ ∃ reply, up j s' q = some reply ∧ reply.rcode = Rcode.RcodeServerFailure))
    (hs : r.extDNSList[i]? = some s) (hok : up i s q = some resp)
    (hacc : resp.rcode ≠ Rcode.RcodeServerFailure) :
    r.serveDNS up { questions := [q] } = (resp, r.extDNSList.take (i + 1))
    ∧ (r.serveDNS up { questions := [q] }).2.length = i + 1
    ∧ failOnce 0 extTestDNSEntry { name := "name1.", qtype := recordType.A }
        = some { rcode := Rcode.RcodeServerFailure, answers := [] }
    ∧ testProxyResolver.serveDNS failOnce (SetQuestion "name1." recordType.A)
        = ({ rcode := Rcode.RcodeSuccess, answers := [] }, [extTestDNSEntry, extTestDNSEntry])
    ∧ (testProxyResolver.serveDNS failOnce (SetQuestion "name1." recordType.A)).2.length = 2 := by
  have hlt : i < r.extDNSList.length := by
    by_contra hge
    rw [List.getElem?_eq_none (Nat.le_of_not_lt hge)] at hs
    cases hs
  have hres : r.serveDNS up { questions := [q] } = (resp, r.extDNSList.take (i + 1)) := by
    rw [serveDNS_forwards r up q hp hmiss]
    apply forwardFrom_hit up q r.extDNSList 0 i s resp
    · intro j s' hj hjs
      rw [Nat.zero_add]
      exact (accepted_eq_none_iff _).2 (hfail j s' hj hjs)
    · exact hs
    · rw [Nat.zero_add]
      exact (accepted_eq_some_iff _ _).2 ⟨hok, hacc⟩
  refine ⟨hres, ?_, by decide, by decide, by decide⟩
  rw [hres]
  simp only [List.length_take]
  omega

/-- Witness of C17: the resolver and the upstream of `TestDNSProxyServFail`; the attempt at
position 0 is answered with SERVFAIL and the one at position 1 with Success. -/
theorem serveDNS_forward_in_order_witness :
    testProxyResolver.proxyDNS = true
    ∧ testProxyResolver.extDNSList[1]? = some extTestDNSEntry
    ∧ failOnce 1 extTestDNSEntry { name := "name1.", qtype := recordType.A }
        = some { rcode := Rcode.RcodeSuccess, answers := [] }
    ∧ (testProxyResolver.serveDNS failOnce
        { questions := [{ name := "name1.", qtype := recordType.A }] }).2.length = 1 + 1 :=
  ⟨rfl, by decide, by decide,
   (serveDNS_forward_in_order testProxyResolver failOnce
      { name := "name1.", qtype := recordType.A } 1 extTestDNSEntry
      { rcode := Rcode.RcodeSuccess, answers := [] } rfl (by decide)
      (fun j s' hj _ => by
        have hj0 : j = 0 := by omega
        subst hj0
        exact Or.inr ⟨_, rfl, rfl⟩)
      (by decide) (by decide) (by decide)).2.1⟩

/-- C18: with forwarding enabled, a query for a name unknown locally and every attempt
failing (a timeout or transport error, or a SERVFAIL reply), the servers tried are the
configured list, each once and in order, and the answer is SERVFAIL. Whatever the upstream
does, no more attempts are made than the list has entries, and when fewer are made the
answer is a response received from a server, not the SERVFAIL of exhaustion. -/
theorem serveDNS_forward_exhausted (r : Resolver) (up : Upstream) (q : Question)
    (hp : r.proxyDNS = true) (hmiss : ¬ r.knows (trimDot q.name))
    (hfail : ∀ j s', r.extDNSList[j]? = some s' →
      (up j s' q = none
        ∨ ∃ reply, up j s' q = some reply ∧ reply.rcode = Rcode.RcodeServerFailure)) :
    r.serveDNS up { questions := [q] } = (servFail, r.extDNSList)
    ∧ (r.serveDNS up { questions := [q] }).2.length = r.extDNSList.length
    ∧ (r.serveDNS up { questions := [q] }).1.rcode = Rcode.RcodeServerFailure
    ∧ (∀ up' : Upstream,
        (r.serveDNS up' { questions := [q] }).2.length ≤ r.extDNSList.length)
    ∧ (∀ up' : Upstream,
        (r.serveDNS up' { questions := [q] }).2.length < r.extDNSList.length →
        ∃ i s', r.extDNSList[i]? = some s'
          ∧ up' i s' q = some (r.serveDNS up' { questions := [q] }).1) := by
  have hres : r.serveDNS up { questions := [q] } = (servFail, r.extDNSList) := by
    rw [serveDNS_forwards r up q hp hmiss]
    apply forwardFrom_all_fail up q r.extDNSList 0
    intro j s' hjs
    rw [Nat.zero_add]
    exact (accepted_eq_none_iff _).2 (hfail j s' hjs)
  refine ⟨hres, by rw [hres], by rw [hres]; rfl, ?_, ?_⟩
  · intro up'
    rw [serveDNS_forwards r up' q hp hmiss]
    rcases forwardFrom_cases up' q r.extDNSList 0 with ⟨i, s', resp, _, _, _, h⟩ | ⟨_, h⟩
    · rw [h]
      simp only [List.length_take]
      omega
    · rw [h]
  · intro up'
    rw [serveDNS_forwards r up' q hp hmiss]
    rcases forwardFrom_cases up' q r.extDNSList 0 with ⟨i, s', resp, hs, hok, _, h⟩ | ⟨_, h⟩
    · intro _
      rw [h]
      refine ⟨i, s', hs, ?_⟩
      rw [Nat.zero_add] at hok
      exact ((accepted_eq_some_iff _ _).1 hok).1
    · rw [h]
      intro hlt
      exact absurd hlt (Nat.lt_irrefl _)

/-- Witness of C18: the resolver of `TestDNSProxyServFail` on an upstream where every
request fails, and on one that answers every request with SERVFAIL: both entries are tried
and the answer is SERVFAIL. -/
theorem serveDNS_forward_exhausted_witness :
    testProxyResolver.proxyDNS = true
    ∧ testProxyResolver.serveDNS allFail
        { questions := [{ name := "name1.", qtype := recordType.A }] }
        = (servFail, [extTestDNSEntry, extTestDNSEntry])
    ∧ testProxyResolver.serveDNS allServFail
        { questions := [{ name := "name1.", qtype := recordType.A }] }
        = (servFail, [extTestDNSEntry, extTestDNSEntry]) :=
  ⟨rfl,
   (serveDNS_forward_exhausted testProxyResolver allFail
      { name := "name1.", qtype := recordType.A } rfl (by decide)
      (fun _ _ _ => Or.inl rfl)).1,
   (serveDNS_forward_exhausted testProxyResolver allServFail
      { name := "name1.", qtype := recordType.A } rfl (by decide)
      (fun _ _ _ => Or.inr ⟨_, rfl, rfl⟩)).1⟩

/-- C19, as stated, fails in the state of `TestDNSProxyServFail`: the first server sends a
response, with code SERVFAIL; that response is not the one of the resolver, and the second
server is tried after it. -/
theorem serveDNS_servfail_reply_counterexample :
    failOnce 0 extTestDNSEntry { name := "name1.", qtype := recordType.A }
      = some { rcode := Rcode.RcodeServerFailure, answers := [] }
    ∧ (testProxyResolver.serveDNS failOnce (SetQuestion "name1." recordType.A)).1
        ≠ { rcode := Rcode.RcodeServerFailure, answers := [] }
    ∧ (testProxyResolver.serveDNS failOnce (SetQuestion "name1." recordType.A)).2
        = [extTestDNSEntry, extTestDNSEntry] := by
  decide

/-- C19, amended: during forwarding a response received from an external server with a
code other than SERVFAIL, a negative one such as NXDOMAIN included, is the response of the
resolver, unchanged, and no server after that one is tried. A server is tried only when the
attempt before it met a timeout or transport error or was answered with SERVFAIL; and after
an attempt that met a timeout or transport error or was answered with SERVFAIL the next
server of the list, if there is one, is tried. -/
theorem serveDNS_relays_accepted_response (r : Resolver) (up : Upstream) (q : Question)
    (i : Nat) (s : extDNSEntry) (resp : Response) (hp : r.proxyDNS = true)
    (hmiss : ¬ r.knows (trimDot q.name))
    (hfail : ∀ j s', j < i → r.extDNSList[j]? = some s' →
      (up j s' q = none
        ∨ ∃ reply, up j s' q = some reply ∧ reply.rcode = Rcode.RcodeServerFailure))
    (hs : r.extDNSList[i]? = some s) (hok : up i s q = some resp)
    (hcode : resp.rcode ≠ Rcode.RcodeServerFailure) :
    (r.serveDNS up { questions := [q] }).1 = resp
    ∧ (r.serveDNS up { questions := [q] }).1.rcode = resp.rcode
    ∧ (r.serveDNS up { questions := [q] }).2.length = i + 1
    ∧ (∀ (up' : Upstream) (j : Nat),
        j + 1 < (r.serveDNS up' { questions := [q] }).2.length →
        ∃ s', r.extDNSList[j]? = some s'
          ∧ (up' j s' q = none
            ∨ ∃ reply, up' j s' q = some reply ∧ reply.rcode = Rcode.RcodeServerFailure))
    ∧ (∀ (up' : Upstream) (k : Nat) (sk : extDNSEntry),
        r.extDNSList[k]? = some sk →
        (up' k sk q = none
          ∨ ∃ reply, up' k sk q = some reply ∧ reply.rcode = Rcode.RcodeServerFailure) →
        k < (r.serveDNS up' { questions := [q] }).2.length →
        k + 1 < r.extDNSList.length →
        k + 1 < (r.serveDNS up' { questions := [q] }).2.length) := by
  have hlt : i < r.extDNSList.length := by
    by_contra hge
    rw [List.getElem?_eq_none (Nat.le_of_not_lt hge)] at hs
    cases hs
  have hres : r.serveDNS up { questions := [q] } = (resp, r.extDNSList.take (i + 1)) := by
    rw [serveDNS_forwards r up q hp hmiss]
    apply forwardFrom_hit up q r.extDNSList 0 i s resp
    · intro j s' hj hjs
      rw [Nat.zero_add]
      exact (accepted_eq_none_iff _).2 (hfail j s' hj hjs)
    · exact hs
    · rw [Nat.zero_add]
      exact (accepted_eq_some_iff _ _).2 ⟨hok, hcode⟩
  refine ⟨by rw [hres], by rw [hres], ?_, ?_, ?_⟩
  · rw [hres]
    simp only [List.length_take]
    omega
  · intro up' j
    rw [serveDNS_forwards r up' q hp hmiss]
    rcases forwardFrom_cases up' q r.extDNSList 0 with
      ⟨k, s', resp', hs', _, hfail', h⟩ | ⟨hfail', h⟩
    · rw [h]
      intro hj
      have hk : k < r.extDNSList.length := by
        by_contra hge
        rw [List.getElem?_eq_none (Nat.le_of_not_lt hge)] at hs'
        cases hs'
      have hjk : j < k := by
        simp only [List.length_take] at hj
        omega
      have hjl : j < r.extDNSList.length := Nat.lt_trans hjk hk
      refine ⟨r.extDNSList[j], List.getElem?_eq_getElem hjl, ?_⟩
      have := hfail' j r.extDNSList[j] hjk (List.getElem?_eq_getElem hjl)
      rw [Nat.zero_add] at this
      exact (accepted_eq_none_iff _).1 this
    · rw [h]
      intro hj
      have hjl : j < r.extDNSList.length := by
        have hj' : j + 1 < r.extDNSList.length := hj
        omega
      refine ⟨r.extDNSList[j], List.getElem?_eq_getElem hjl, ?_⟩
      have := hfail' j r.extDNSList[j] (List.getElem?_eq_getElem hjl)
      rw [Nat.zero_add] at this
      exact (accepted_eq_none_iff _).1 this
  · intro up' k sk hsk hfailed
    rw [serveDNS_forwards r up' q hp hmiss]
    have hrej : accepted (up' k sk q) = none := (accepted_eq_none_iff _).2 hfailed
    rcases forwardFrom_cases up' q r.extDNSList 0 with
      ⟨i0, s0, resp0, hs0, hok0, _, h⟩ | ⟨_, h⟩
    · rw [h]
      intro hk _
      have hi0 : i0 < r.extDNSList.length := by
        by_contra hge
        rw [List.getElem?_eq_none (Nat.le_of_not_lt hge)] at hs0
        cases hs0
      have hne : k ≠ i0 := by
        intro hki
        subst hki
        have hsame : sk = s0 := Option.some.inj (hsk.symm.trans hs0)
        subst hsame
        rw [Nat.zero_add] at hok0
        rw [hrej] at hok0
        cases hok0
      simp only [List.length_take] at hk ⊢
      omega
    · rw [h]
      intro _ hnext
      exact hnext

/-- Witness of amended C19: the first server answers NXDOMAIN; that response is the one of
the resolver and the second entry is not tried. -/
theorem serveDNS_relays_accepted_response_witness :
    testProxyResolver.proxyDNS = true
    ∧ testProxyResolver.extDNSList[0]? = some extTestDNSEntry
    ∧ (testProxyResolver.serveDNS nxdomainUp
        { questions := [{ name := "name1.", qtype := recordType.A }] }).1
        = { rcode := Rcode.RcodeNameError, answers := [] }
    ∧ (testProxyResolver.serveDNS nxdomainUp
        { questions := [{ name := "name1.", qtype := recordType.A }] }).2.length = 0 + 1 :=
  ⟨rfl, by decide,
   (serveDNS_relays_accepted_response testProxyResolver nxdomainUp
      { name := "name1.", qtype := recordType.A } 0 extTestDNSEntry
      { rcode := Rcode.RcodeNameError, answers := [] } rfl (by decide)
      (fun j _ hj _ => absurd hj (Nat.not_lt_zero j)) (by decide) rfl (by decide)).1,
   (serveDNS_relays_accepted_response testProxyResolver nxdomainUp
      { name := "name1.", qtype := recordType.A } 0 extTestDNSEntry
      { rcode := Rcode.RcodeNameError, answers := [] } rfl (by decide)
      (fun j _ hj _ => absurd hj (Nat.not_lt_zero j)) (by decide) rfl (by decide)).2.2.1⟩

/-! ## Adding records -/

/-- C20: `AddRecord` appends one entry, kept under the lower-cased name, whatever the store
already holds. After a non-empty sequence of `AddRecord` calls under names equal up to
letter case, the store has one entry more per call, each call's record is in the store
under the lower-cased name, and `Resolve` of the name in any letter case finds it; for
type A the addresses returned contain the IPv4 address of every added record that has
one, for type AAAA the IPv6 address of every added record that has one. -/
theorem AddRecord_accumulates (st : Store) (calls : List svcRecord) (name q : String)
    (hcalls : ∀ c ∈ calls, lowerName c.name = lowerName name) (hne : calls ≠ [])
    (hq : lowerName q = lowerName name) :
    (∀ (st' : Store) (n sn sid : String) (v4 v6 : IP) (any : Bool) (tn : String),
        (AddRecord st' n sn sid v4 v6 any tn).length = st'.length + 1
        ∧ (AddRecord st' n sn sid v4 v6 any tn).getLast? =
            some { name := lowerName n, serviceName := sn, serviceID := sid, ipv4 := v4,
                   ipv6 := v6, isAnycast := any, taskName := tn })
    ∧ (AddRecords st calls).length = st.length + calls.length
    ∧ (∀ c ∈ calls, { c with name := lowerName c.name } ∈ AddRecords st calls)
    ∧ (∀ t, (Resolve (AddRecords st calls) q t).2 = true)
    ∧ (∀ c ∈ calls, c.ipv4 ≠ [] →
        c.ipv4 ∈ (Resolve (AddRecords st calls) q recordType.A).1)
    ∧ (∀ c ∈ calls, c.ipv6 ≠ [] →
        c.ipv6 ∈ (Resolve (AddRecords st calls) q recordType.AAAA).1) := by
  have hstored : ∀ c ∈ calls, { c with name := lowerName c.name } ∈ AddRecords st calls :=
    fun c hc => mem_AddRecords_of_call calls st c hc
  refine ⟨?_, length_AddRecords calls st, hstored, ?_, ?_, ?_⟩
  · intro st' n sn sid v4 v6 any tn
    simp [AddRecord]
  · intro t
    obtain ⟨c, hc⟩ := List.exists_mem_of_ne_nil _ hne
    exact (Resolve_found_iff _ q t).2
      ⟨_, hstored c hc, (hcalls c hc).trans hq.symm⟩
  · intro c hc hip
    exact (mem_Resolve_A _ q c.ipv4).2
      ⟨_, hstored c hc, (hcalls c hc).trans hq.symm, rfl, hip⟩
  · intro c hc hip
    exact (mem_Resolve_AAAA _ q c.ipv6).2
      ⟨_, hstored c hc, (hcalls c hc).trans hq.symm, rfl, hip⟩

/-- Witness of C20: the record of the test added twice, as `"Name1"` and as `"NAME1"`, to
the store of the test; the store then holds three entries and `"nAmE1"` is found. -/
theorem AddRecord_accumulates_witness :
    lowerName "nAmE1" = lowerName "name1"
    ∧ (AddRecords testStore
        [{ name := "Name1", serviceName := "", serviceID := "svc1", ipv4 := [192, 168, 0, 1],
           ipv6 := [], isAnycast := true, taskName := "test" },
         { name := "NAME1", serviceName := "", serviceID := "svc1", ipv4 := [192, 168, 0, 1],
           ipv6 := [], isAnycast := true, taskName := "test" }]).length = testStore.length + 2
    ∧ (Resolve (AddRecords testStore
        [{ name := "Name1", serviceName := "", serviceID := "svc1", ipv4 := [192, 168, 0, 1],
           ipv6 := [], isAnycast := true, taskName := "test" },
         { name := "NAME1", serviceName := "", serviceID := "svc1", ipv4 := [192, 168, 0, 1],
           ipv6 := [], isAnycast := true, taskName := "test" }]) "nAmE1" recordType.A).2
        = true :=
  ⟨by decide,
   (AddRecord_accumulates testStore
      [{ name := "Name1", serviceName := "", serviceID := "svc1", ipv4 := [192, 168, 0, 1],
         ipv6 := [], isAnycast := true, taskName := "test" },
       { name := "NAME1", serviceName := "", serviceID := "svc1", ipv4 := [192, 168, 0, 1],
         ipv6 := [], isAnycast := true, taskName := "test" }] "name1" "nAmE1"
      (by decide) (by decide) (by decide)).2.1,
   (AddRecord_accumulates testStore
      [{ name := "Name1", serviceName := "", serviceID := "svc1", ipv4 := [192, 168, 0, 1],
         ipv6 := [], isAnycast := true, taskName := "test" },
       { name := "NAME1", serviceName := "", serviceID := "svc1", ipv4 := [192, 168, 0, 1],
         ipv6 := [], isAnycast := true, taskName := "test" }] "name1" "nAmE1"
      (by decide) (by decide) (by decide)).2.2.2.1 recordType.A⟩

end libnetwork

/-! ## Lemmas and properties of the later parts -/

namespace GoMap

variable {V : Type}

/-- A property of the entries survives a write that satisfies it. -/
theorem forall_get?_set (m : GoMap V) (P : String → V → Prop) (k0 : String) (v0 : V)
    (hm : ∀ k v, m.get? k = some v → P k v) (h0 : P k0 v0) :
    ∀ k v, (m.set k0 v0).get? k = some v → P k v := by
  intro k v hkv
  by_cases hk : k = k0
  · subst hk
    rw [get?_set_self] at hkv
    cases hkv
    exact h0
  · rw [get?_set_ne m hk] at hkv
    exact hm k v hkv

/-- A property of the entries survives a deletion. -/
theorem forall_get?_delete (m : GoMap V) (P : String → V → Prop) (k0 : String)
    (hm : ∀ k v, m.get? k = some v → P k v) :
    ∀ k v, (m.delete k0).get? k = some v → P k v := by
  intro k v hkv
  by_cases hk : k = k0
  · subst hk
    rw [get?_delete_self] at hkv
    cases hkv
  · rw [get?_delete_ne m hk] at hkv
    exact hm k v hkv

/-- When every value determines its key through `f`, iterating the values and applying `f`
gives the keys. -/
theorem values_map_eq_keys {W : Type} (m : GoMap V) (f : V → W) (g : String → W)
    (h : ∀ k v, m.get? k = some v → f v = g k) : m.values.map f = m.keys.map g := by
  have hent : ∀ e ∈ m.entries, f e.2 = g e.1 := fun e he =>
    h e.1 e.2 (get?_of_mem_entries m he)
  simp only [values, keys, List.map_map]
  exact List.map_congr_left hent

end GoMap

namespace ipvlan

theorem network_call_keeps_keyed (n : network) (c : endpointCall)
    (hn : ∀ k v, n.endpoints.get? k = some v → ∃ ep : endpoint, v = some ep ∧ ep.id = k) :
    ∀ k v, (n.call c).endpoints.get? k = some v → ∃ ep : endpoint, v = some ep ∧ ep.id = k := by
  cases c with
  | add ep =>
    exact GoMap.forall_get?_set n.endpoints
      (fun k v => ∃ ep : endpoint, v = some ep ∧ ep.id = k) ep.id (some ep) hn ⟨ep, rfl, rfl⟩
  | del eid =>
    exact GoMap.forall_get?_delete n.endpoints
      (fun k v => ∃ ep : endpoint, v = some ep ∧ ep.id = k) eid hn

theorem network_calls_keep_keyed (cs : List endpointCall) (n : network)
    (hn : ∀ k v, n.endpoints.get? k = some v → ∃ ep : endpoint, v = some ep ∧ ep.id = k) :
    ∀ k v, (n.calls cs).endpoints.get? k = some v → ∃ ep : endpoint, v = some ep ∧ ep.id = k := by
  induction cs generalizing n with
  | nil => exact hn
  | cons c cs ih => exact ih (n.call c) (network_call_keeps_keyed n c hn)

/-- In a reachable network every key holds a non-nil endpoint whose id is that key. -/
theorem network_reachable_keyed (n : network) (h : n.reachable) :
    ∀ k v, n.endpoints.get? k = some v → ∃ ep : endpoint, v = some ep ∧ ep.id = k := by
  obtain ⟨n0, cs, h0, rfl⟩ := h
  apply network_calls_keep_keyed
  intro k v hkv
  rw [h0] at hkv
  cases hkv

/-- C27: in every registry state reachable from the empty registry by `addNetwork` and
`deleteNetwork` calls, every key holds a non-nil network whose id is the key; a
`getNetwork` that returns no error returns a network whose id is the id asked for; and the
ids of the networks `getNetworks` returns are the keys, so no two of them are equal. The
same holds for the endpoints of a network reachable by `addEndpoint` and `deleteEndpoint`
calls from a network without endpoints: every key holds a non-nil endpoint whose id is the
key, and an endpoint returned by `getEndpoint` or `endpoint` has the id asked for. -/
theorem registry_keys_identify (d : driver) (n : network) (hd : d.reachable)
    (hn : n.reachable) :
    (∀ k v, d.networks.get? k = some v → ∃ nw : network, v = some nw ∧ nw.id = k)
    ∧ (∀ id p, d.getNetwork id = (p, none) → ∃ nw : network, p = some nw ∧ nw.id = id)
    ∧ d.getNetworks.map (Option.map network.id) = d.networks.keys.map some
    ∧ (d.getNetworks.map (Option.map network.id)).Nodup
    ∧ (∀ k v, n.endpoints.get? k = some v → ∃ ep : endpoint, v = some ep ∧ ep.id = k)
    ∧ (∀ eid ep, (n.getEndpoint eid).1 = some ep → ep.id = eid)
    ∧ (∀ eid ep, n.endpoint eid = some ep → ep.id = eid) := by
  have hkd := driver.reachable_keyed d hd
  have hkn := network_reachable_keyed n hn
  have hids : d.getNetworks.map (Option.map network.id) = d.networks.keys.map some := by
    rw [driver.getNetworks_eq_values]
    apply GoMap.values_map_eq_keys
    intro k v hkv
    obtain ⟨nw, hv, hid⟩ := hkd k v hkv
    rw [hv, ← hid]
    rfl
  refine ⟨hkd, ?_, hids, ?_, hkn, ?_, ?_⟩
  · intro id p hp
    by_cases hid : id = ""
    · subst hid
      simp [driver.getNetwork] at hp
    · cases hget : d.networks.get? id with
      | none => simp [driver.getNetwork, hid, hget] at hp
      | some v =>
        have : v = p := by simpa [driver.getNetwork, hid, hget] using hp
        subst this
        exact hkd id v hget
  · rw [hids]
    exact d.networks.nodup.map (fun a b h => Option.some.inj h)
  · intro eid ep hep
    by_cases hid : eid = ""
    · subst hid
      simp [network.getEndpoint] at hep
    · cases hget : n.endpoints.get? eid with
      | none => simp [network.getEndpoint, hid, hget] at hep
      | some v =>
        have hv : v = some ep := by simpa [network.getEndpoint, hid, hget] using hep
        obtain ⟨ep', hv', hid'⟩ := hkn eid v hget
        have : ep' = ep := Option.some.inj (hv'.symm.trans hv)
        rw [← this]
        exact hid'
  · intro eid ep hep
    cases hget : n.endpoints.get? eid with
    | none => simp [network.endpoint, hget] at hep
    | some v =>
      have hv : v = some ep := by simpa [network.endpoint, hget] using hep
      obtain ⟨ep', hv', hid'⟩ := hkn eid v hget
      have : ep' = ep := Option.some.inj (hv'.symm.trans hv)
      rw [← this]
      exact hid'

/-- Witness of C27: the registry holding `"net1"` and the network holding `"ep1"`. -/
theorem registry_keys_identify_witness :
    sampleDriver.reachable ∧ liveNet.reachable
    ∧ sampleDriver.getNetworks.map (Option.map network.id) = sampleDriver.networks.keys.map some
    ∧ (∀ eid ep, (liveNet.getEndpoint eid).1 = some ep → ep.id = eid) :=
  ⟨⟨[registryCall.add (sampleNet "net1" "ipvlan")], rfl⟩,
   ⟨sampleNet "net1" "ipvlan", [endpointCall.add (sampleEp "ep1" "192.168.0.1")], rfl, rfl⟩,
   (registry_keys_identify sampleDriver liveNet
      ⟨[registryCall.add (sampleNet "net1" "ipvlan")], rfl⟩
      ⟨sampleNet "net1" "ipvlan", [endpointCall.add (sampleEp "ep1" "192.168.0.1")], rfl,
        rfl⟩).2.2.1,
   (registry_keys_identify sampleDriver liveNet
      ⟨[registryCall.add (sampleNet "net1" "ipvlan")], rfl⟩
      ⟨sampleNet "net1" "ipvlan", [endpointCall.add (sampleEp "ep1" "192.168.0.1")], rfl,
        rfl⟩).2.2.2.2.2.1⟩

/-- C28: `addNetwork n` and `deleteNetwork id` leave the result of `getNetwork j` as it
was for every `j` other than `n.id`, respectively `id`; `addEndpoint ep` and
`deleteEndpoint eid` leave the result of `getEndpoint j` as it was for every `j` other
than `ep.id`, respectively `eid`; and the lookups `network`, `getNetwork`, `getNetworks`,
`endpoint` and `getEndpoint` leave the registry they read as it was. -/
theorem calls_touch_one_key (d : driver) (n : network) (ep : endpoint) (nw : network)
    (id eid j : String) :
    (j ≠ nw.id → (d.addNetwork nw).getNetwork j = d.getNetwork j)
    ∧ (j ≠ id → (d.deleteNetwork id).getNetwork j = d.getNetwork j)
    ∧ (j ≠ ep.id → (n.addEndpoint ep).getEndpoint j = n.getEndpoint j)
    ∧ (j ≠ eid → (n.deleteEndpoint eid).getEndpoint j = n.getEndpoint j)
    ∧ d.after (driverCall.network j) = d
    ∧ d.after (driverCall.getNetwork j) = d
    ∧ d.after driverCall.getNetworks = d
    ∧ (∀ h : Heap, h.getNetworks.2.drv = h.drv)
    ∧ n.after (networkCall.endpoint j) = n
    ∧ n.after (networkCall.getEndpoint j) = n := by
  refine ⟨?_, ?_, ?_, ?_, rfl, rfl, rfl, fun _ => rfl, rfl, rfl⟩
  · intro h
    have hg : (d.addNetwork nw).networks.get? j = d.networks.get? j :=
      GoMap.get?_set_ne _ h _
    simp only [driver.getNetwork, hg]
  · intro h
    have hg : (d.deleteNetwork id).networks.get? j = d.networks.get? j :=
      GoMap.get?_delete_ne _ h
    simp only [driver.getNetwork, hg]
  · intro h
    have hg : (n.addEndpoint ep).endpoints.get? j = n.endpoints.get? j :=
      GoMap.get?_set_ne _ h _
    simp only [network.getEndpoint, hg]
  · intro h
    have hg : (n.deleteEndpoint eid).endpoints.get? j = n.endpoints.get? j :=
      GoMap.get?_delete_ne _ h
    simp only [network.getEndpoint, hg]

/-- Witness of C28: registering `"net2"` and deleting `"net2"` leave the lookup of
`"net1"` as it was. -/
theorem calls_touch_one_key_witness :
    "net1" ≠ (sampleNet "net2" "ipvlan").id
    ∧ (sampleDriver.addNetwork (sampleNet "net2" "ipvlan")).getNetwork "net1"
        = sampleDriver.getNetwork "net1"
    ∧ (sampleDriver.deleteNetwork "net2").getNetwork "net1" = sampleDriver.getNetwork "net1" :=
  ⟨by decide,
   (calls_touch_one_key sampleDriver liveNet (sampleEp "ep1" "192.168.0.1")
      (sampleNet "net2" "ipvlan") "net2" "ep1" "net1").1 (by decide),
   (calls_touch_one_key sampleDriver liveNet (sampleEp "ep1" "192.168.0.1")
      (sampleNet "net2" "ipvlan") "net2" "ep1" "net1").2.1 (by decide)⟩

/-- C29: for a non-empty endpoint id, `endpoint` and `getEndpoint` return the same
endpoint, nil when the id is not registered, and `getEndpoint` returns no error; for the
empty id `endpoint` returns what is stored under the empty key while `getEndpoint` returns
the nil endpoint and an error. For a non-empty network id, `network` returns the same
network as `getNetwork`; it is nil when `getNetwork` fails with NotFound, and in a
reachable registry only then. -/
theorem lookups_agree (n : network) (d : driver) (eid nid : String) (heid : eid ≠ "")
    (hnid : nid ≠ "") :
    n.endpoint eid = (n.getEndpoint eid).1
    ∧ (n.getEndpoint eid).2 = none
    ∧ (eid ∉ n.endpoints.keys → n.endpoint eid = none)
    ∧ (∀ v, n.endpoints.get? "" = some v → n.endpoint "" = v)
    ∧ (n.getEndpoint "").1 = none
    ∧ (n.getEndpoint "").2 ≠ none
    ∧ (d.network nid).1 = (d.getNetwork nid).1
    ∧ ((d.getNetwork nid).2 = some (types.NotFoundErrorf ("network not found: " ++ nid)) →
        (d.network nid).1 = none)
    ∧ (d.reachable →
        ((d.network nid).1 = none
          ↔ (d.getNetwork nid).2 = some (types.NotFoundErrorf ("network not found: " ++ nid)))) := by
  refine ⟨?_, ?_, ?_, ?_, ?_, ?_, ?_, ?_, ?_⟩
  · cases hget : n.endpoints.get? eid <;> simp [network.endpoint, network.getEndpoint, heid, hget]
  · cases hget : n.endpoints.get? eid <;> simp [network.getEndpoint, heid, hget]
  · intro h
    have hget : n.endpoints.get? eid = none := (GoMap.get?_eq_none_iff _ _).2 h
    simp [network.endpoint, hget]
  · intro v hv
    simp [network.endpoint, hv]
  · simp [network.getEndpoint]
  · simp [network.getEndpoint]
  · cases hget : d.networks.get? nid <;> simp [driver.network, driver.getNetwork, hnid, hget]
  · cases hget : d.networks.get? nid <;> simp [driver.network, driver.getNetwork, hnid, hget]
  · intro hd
    cases hget : d.networks.get? nid with
    | none => simp [driver.network, driver.getNetwork, hnid, hget]
    | some v =>
      obtain ⟨nw, hv, _⟩ := driver.reachable_keyed d hd nid v hget
      subst hv
      simp [driver.network, driver.getNetwork, hnid, hget]

/-- Witness of C29: endpoint `"ep1"` of `"net1"` and network `"net1"` of the registry. -/
theorem lookups_agree_witness :
    "ep1" ≠ "" ∧ "net1" ≠ ""
    ∧ liveNet.endpoint "ep1" = (liveNet.getEndpoint "ep1").1
    ∧ (sampleDriver.network "net1").1 = (sampleDriver.getNetwork "net1").1
    ∧ ((sampleNet "net1" "ipvlan").addEndpoint (sampleEp "" "192.168.0.9")).endpoint ""
        = some (sampleEp "" "192.168.0.9")
    ∧ (((sampleNet "net1" "ipvlan").addEndpoint (sampleEp "" "192.168.0.9")).getEndpoint "").1
        = none :=
  ⟨by decide, by decide,
   (lookups_agree liveNet sampleDriver "ep1" "net1" (by decide) (by decide)).1,
   (lookups_agree liveNet sampleDriver "ep1" "net1" (by decide) (by decide)).2.2.2.2.2.2.1,
   (lookups_agree ((sampleNet "net1" "ipvlan").addEndpoint (sampleEp "" "192.168.0.9"))
      sampleDriver "ep1" "net1" (by decide) (by decide)).2.2.2.1 _ (by decide),
   (lookups_agree ((sampleNet "net1" "ipvlan").addEndpoint (sampleEp "" "192.168.0.9"))
      sampleDriver "ep1" "net1" (by decide) (by decide)).2.2.2.2.1⟩

end ipvlan

namespace ipvlan

theorem heldAfter_append (a b : List action) :
    ∀ h : Option mutex,
      heldAfter h (a ++ b) = (heldAfter h a).bind (fun h' => heldAfter h' b) := by
  induction a with
  | nil => intro h; cases h <;> simp [heldAfter]
  | cons x rest ih =>
    intro h
    cases x with
    | Lock m => cases h <;> simp [heldAfter, ih]
    | Unlock m =>
      cases h with
      | none => simp [heldAfter]
      | some h' =>
        by_cases hm : m = h'
        · simp [heldAfter, hm, ih]
        · simp [heldAfter, hm]
    | mapAccess m =>
      cases h with
      | none => simp [heldAfter]
      | some h' =>
        by_cases hm : m = h'
        · simp [heldAfter, hm, ih]
        · simp [heldAfter, hm]
    | compute => cases h <;> simp [heldAfter, ih]
    | logError => cases h <;> simp [heldAfter, ih]

/-- Every function of the file keeps the lock discipline on every path. -/
theorem actions_disciplined (m : method) (found : Bool) :
    heldAfter none (m.actions found) = some none := by
  cases m with
  | network nid => cases found <;> simp [method.actions, heldAfter]
  | addNetwork nid => simp [method.actions, heldAfter]
  | deleteNetwork nid => simp [method.actions, heldAfter]
  | getNetworks => simp [method.actions, heldAfter]
  | endpoint nid eid => simp [method.actions, heldAfter]
  | addEndpoint nid eid => simp [method.actions, heldAfter]
  | deleteEndpoint nid eid => simp [method.actions, heldAfter]
  | getEndpoint nid eid =>
    by_cases h : eid = "" <;> simp [method.actions, heldAfter, h]
  | validateID nid eid => simp [method.actions, heldAfter]
  | getNetwork id =>
    by_cases h : id = "" <;> cases found <;> simp [method.actions, heldAfter, h]

theorem program_disciplined (p : List (method × Bool)) :
    heldAfter none (program p) = some none := by
  induction p with
  | nil => rfl
  | cons mb rest ih =>
    simp only [program, heldAfter_append, actions_disciplined, Option.some_bind, ih]

theorem spawn_disciplined (progs : List (List (method × Bool))) :
    ∀ t ∈ spawn progs, t.disciplined := by
  intro t ht
  obtain ⟨p, _, rfl⟩ := List.mem_map.1 ht
  exact Or.inl ⟨rfl, program_disciplined p⟩

theorem step_disciplined (sys : List thread) (t t' : thread) (ht : t.disciplined)
    (hstep : t.step sys = some t') : t'.disciplined := by
  obtain ⟨held, rest⟩ := t
  cases rest with
  | nil => simp [thread.step] at hstep
  | cons x rest =>
    rcases ht with ⟨hh, hd⟩ | ⟨m', hh, hd⟩
    · simp only at hh hd
      subst hh
      cases x with
      | Lock m =>
        by_cases hfree : holds sys m = true
        · simp [thread.step, hfree] at hstep
        · have : t' = { held := [m], rest := rest } := by
            simpa [thread.step, hfree] using hstep.symm
          subst this
          exact Or.inr ⟨m, rfl, by simpa [heldAfter] using hd⟩
      | Unlock m => simp [heldAfter] at hd
      | mapAccess m => simp [heldAfter] at hd
      | compute =>
        have : t' = { held := [], rest := rest } := by simpa [thread.step] using hstep.symm
        subst this
        exact Or.inl ⟨rfl, by simpa [heldAfter] using hd⟩
      | logError =>
        have : t' = { held := [], rest := rest } := by simpa [thread.step] using hstep.symm
        subst this
        exact Or.inl ⟨rfl, by simpa [heldAfter] using hd⟩
    · simp only at hh hd
      subst hh
      cases x with
      | Lock m => simp [heldAfter] at hd
      | Unlock m =>
        by_cases hm : m = m'
        · subst hm
          have : t' = { held := [], rest := rest } := by
            simpa [thread.step] using hstep.symm
          subst this
          exact Or.inl ⟨rfl, by simpa [heldAfter] using hd⟩
        · simp [heldAfter, hm] at hd
      | mapAccess m =>
        by_cases hm : m = m'
        · subst hm
          have : t' = { held := [m], rest := rest } := by simpa [thread.step] using hstep.symm
          subst this
          exact Or.inr ⟨m, rfl, by simpa [heldAfter] using hd⟩
        · simp [heldAfter, hm] at hd
      | compute =>
        have : t' = { held := [m'], rest := rest } := by simpa [thread.step] using hstep.symm
        subst this
        exact Or.inr ⟨m', rfl, by simpa [heldAfter] using hd⟩
      | logError => simp [heldAfter] at hd

theorem stepAt_disciplined (sys sys' : List thread) (i : Nat)
    (h : ∀ t ∈ sys, t.disciplined) (hstep : stepAt sys i = some sys') :
    ∀ t ∈ sys', t.disciplined := by
  cases hi : sys[i]? with
  | none => simp [stepAt, hi] at hstep
  | some t =>
    cases hs : t.step sys with
    | none => simp [stepAt, hi, hs] at hstep
    | some t' =>
      have hsys : sys' = sys.set i t' := by simpa [stepAt, hi, hs] using hstep.symm
      subst hsys
      have ht : t ∈ sys := List.getElem?_mem hi
      intro u hu
      rcases List.mem_or_eq_of_mem_set hu with h1 | h1
      · exact h u h1
      · rw [h1]
        exact step_disciplined sys t t' (h t ht) hs

theorem runSched_disciplined (sched : List Nat) :
    ∀ sys sys' : List thread, (∀ t ∈ sys, t.disciplined) → runSched sys sched = some sys' →
      ∀ t ∈ sys', t.disciplined := by
  induction sched with
  | nil =>
    intro sys sys' h hrun
    have : sys = sys' := by simpa [runSched] using hrun
    exact this ▸ h
  | cons i sched ih =>
    intro sys sys' h hrun
    cases hs : stepAt sys i with
    | none => simp [runSched, hs] at hrun
    | some mid =>
      have hrun' : runSched mid sched = some sys' := by simpa [runSched, hs] using hrun
      exact ih mid sys' (stepAt_disciplined sys mid i h hs) hrun'

/-- A disciplined goroutine that holds a mutex can execute its next statement. -/
theorem holder_can_step (sys : List thread) (t : thread) (m : mutex) (ht : t.disciplined)
    (hm : m ∈ t.held) : ∃ t', t.step sys = some t' := by
  obtain ⟨held, rest⟩ := t
  rcases ht with ⟨hh, _⟩ | ⟨m', hh, hd⟩
  · simp only at hh
    subst hh
    simp at hm
  · simp only at hh hd
    subst hh
    cases rest with
    | nil => simp [heldAfter] at hd
    | cons x rest =>
      cases x with
      | Lock l => simp [heldAfter] at hd
      | Unlock l =>
        by_cases hl : l = m'
        · subst hl
          exact (by simp [thread.step])
        · simp [heldAfter, hl] at hd
      | mapAccess l => exact (by simp [thread.step])
      | compute => exact (by simp [thread.step])
      | logError => exact (by simp [thread.step])

/-- Among disciplined goroutines, as long as one has statements left, one can run. -/
theorem disciplined_progress (sys : List thread) (h : ∀ t ∈ sys, t.disciplined)
    (hfin : finished sys = false) : ∃ i sys', stepAt sys i = some sys' := by
  have hex : ∃ t ∈ sys, t.rest ≠ [] := by
    by_contra hno
    have : finished sys = true := by
      simp only [finished, List.all_eq_true, List.isEmpty_iff]
      intro t ht
      by_contra hne
      exact hno ⟨t, ht, hne⟩
    rw [this] at hfin
    cases hfin
  obtain ⟨t, ht, hrest⟩ := hex
  have key : ∀ u ∈ sys, (∃ u', u.step sys = some u') → ∃ i sys', stepAt sys i = some sys' := by
    intro u hu ⟨u', hu'⟩
    obtain ⟨i, hi⟩ := List.getElem?_of_mem hu
    exact ⟨i, sys.set i u', by simp [stepAt, hi, hu']⟩
  obtain ⟨held, rest⟩ := t
  cases rest with
  | nil => exact absurd rfl hrest
  | cons x rest =>
    cases x with
    | Lock m =>
      by_cases hfree : holds sys m = true
      · obtain ⟨u, hu, hmu⟩ : ∃ u ∈ sys, m ∈ u.held := by
          simpa [holds, List.any_eq_true] using hfree
        exact key u hu (holder_can_step sys u m (h u hu) hmu)
      · exact key _ ht (by simp [thread.step, hfree])
    | Unlock m =>
      rcases h _ ht with ⟨hh, hd⟩ | ⟨m', hh, hd⟩
      · simp only at hh hd
        subst hh
        simp [heldAfter] at hd
      · simp only at hh hd
        subst hh
        by_cases hm : m = m'
        · subst hm
          exact key _ ht (by simp [thread.step])
        · simp [heldAfter, hm] at hd
    | mapAccess m => exact key _ ht (by simp [thread.step])
    | compute => exact key _ ht (by simp [thread.step])
    | logError => exact key _ ht (by simp [thread.step])

/-- C26: every function of `ipvlan_state.go`, on every path, locks at most the mutex of
its receiver, touches only the map that mutex guards while holding it, takes no other
mutex and calls no logger before it has unlocked, and ends with no mutex held; so no call
takes the mutex of a network while holding that of the driver, or the reverse. Hence no
deadlock: when goroutines that make any sequences of these calls have run in any order,
either all have finished or one of them can execute its next statement. -/
theorem lock_discipline (m : method) (found : Bool) (progs : List (List (method × Bool)))
    (sched : List Nat) (sys : List thread) (hrun : runSched (spawn progs) sched = some sys) :
    heldAfter none (m.actions found) = some none
    ∧ (∀ t ∈ sys, t.held.length ≤ 1)
    ∧ (finished sys = true ∨ ∃ i sys', stepAt sys i = some sys') := by
  have hd := runSched_disciplined sched (spawn progs) sys (spawn_disciplined progs) hrun
  refine ⟨actions_disciplined m found, ?_, ?_⟩
  · intro t ht
    rcases hd t ht with ⟨hh, _⟩ | ⟨m', hh, _⟩
    · simp [hh]
    · simp [hh]
  · cases hfin : finished sys with
    | true => exact Or.inl rfl
    | false => exact Or.inr (disciplined_progress sys hd hfin)

/-- Witness of C26: one goroutine runs `getNetwork "net1"` and another `addEndpoint` on
network `"net1"`; after the first has locked the driver and the second the network, the
system is not finished and a goroutine can go on. -/
theorem lock_discipline_witness :
    runSched (spawn samplePrograms) [0, 1] = some sampleSys
    ∧ finished sampleSys = false
    ∧ (finished sampleSys = true ∨ ∃ i sys', stepAt sampleSys i = some sys') :=
  ⟨by decide, by decide,
   (lock_discipline (method.getNetwork "net1") true samplePrograms [0, 1] sampleSys
      (by decide)).2.2⟩

end ipvlan

namespace libnetwork

theorem DeleteRecord_of_no_match (st : Store) (name : String) (ipv4 ipv6 : IP)
    (h : ∀ rec ∈ st, rec.isMatch name ipv4 ipv6 = false) :
    DeleteRecord st name ipv4 ipv6 = st := by
  induction st with
  | nil => rfl
  | cons r rest ih =>
    have hr : r.isMatch name ipv4 ipv6 = false := h r (List.mem_cons_self _ _)
    have hrest := ih (fun rec hrec => h rec (List.mem_cons_of_mem _ hrec))
    simp [DeleteRecord, hr, hrest]

theorem DeleteRecord_perm (st : Store) (name : String) (ipv4 ipv6 : IP)
    (h : ∃ rec ∈ st, rec.isMatch name ipv4 ipv6 = true) :
    ∃ rec, rec ∈ st ∧ rec.isMatch name ipv4 ipv6 = true
      ∧ st.Perm (rec :: DeleteRecord st name ipv4 ipv6) := by
  induction st with
  | nil =>
    obtain ⟨rec, hrec, _⟩ := h
    simp at hrec
  | cons r rest ih =>
    cases hr : r.isMatch name ipv4 ipv6 with
    | true =>
      refine ⟨r, List.mem_cons_self _ _, hr, ?_⟩
      simp [DeleteRecord, hr]
    | false =>
      have h' : ∃ rec ∈ rest, rec.isMatch name ipv4 ipv6 = true := by
        obtain ⟨rec, hrec, hm⟩ := h
        rcases List.mem_cons.1 hrec with h1 | h1
        · subst h1
          rw [hr] at hm
          cases hm
        · exact ⟨rec, h1, hm⟩
      obtain ⟨rec, hrec, hm, hperm⟩ := ih h'
      refine ⟨rec, List.mem_cons_of_mem _ hrec, hm, ?_⟩
      have : DeleteRecord (r :: rest) name ipv4 ipv6 = r :: DeleteRecord rest name ipv4 ipv6 := by
        simp [DeleteRecord, hr]
      rw [this]
      exact (List.Perm.cons r hperm).trans (List.Perm.swap rec r _)

theorem DeleteRecord_sublist (st : Store) (name : String) (ipv4 ipv6 : IP) :
    List.Sublist (DeleteRecord st name ipv4 ipv6) st := by
  induction st with
  | nil => exact List.Sublist.slnil
  | cons r rest ih =>
    cases hr : r.isMatch name ipv4 ipv6 with
    | true =>
      have : DeleteRecord (r :: rest) name ipv4 ipv6 = rest := by simp [DeleteRecord, hr]
      rw [this]
      exact List.sublist_cons_self r rest
    | false =>
      have : DeleteRecord (r :: rest) name ipv4 ipv6 = r :: DeleteRecord rest name ipv4 ipv6 := by
        simp [DeleteRecord, hr]
      rw [this]
      exact ih.cons₂ r

theorem mem_DeleteRecord_of_no_match (st : Store) (name : String) (ipv4 ipv6 : IP)
    (rec : svcRecord) (hrec : rec ∈ st) (hm : rec.isMatch name ipv4 ipv6 = false) :
    rec ∈ DeleteRecord st name ipv4 ipv6 := by
  induction st with
  | nil => simp at hrec
  | cons r rest ih =>
    cases hr : r.isMatch name ipv4 ipv6 with
    | true =>
      have : DeleteRecord (r :: rest) name ipv4 ipv6 = rest := by simp [DeleteRecord, hr]
      rw [this]
      rcases List.mem_cons.1 hrec with h1 | h1
      · subst h1
        rw [hr] at hm
        cases hm
      · exact h1
    | false =>
      have : DeleteRecord (r :: rest) name ipv4 ipv6 = r :: DeleteRecord rest name ipv4 ipv6 := by
        simp [DeleteRecord, hr]
      rw [this]
      rcases List.mem_cons.1 hrec with h1 | h1
      · subst h1
        exact List.mem_cons_self _ _
      · exact List.mem_cons_of_mem _ (ih h1)

/-- C21: `DeleteRecord(name, ipv4, ipv6)` removes one entry that matches the name (in
lower case) and the two addresses, and nothing else: when an entry matches, the store
before is the store after plus that one entry; the store after holds its entries in the
order they had; every entry that does not match, under this name or another, is still in
the store, its name is still found by `Resolve` and its addresses are still returned; and
when no entry matches the store is unchanged. -/
theorem DeleteRecord_frame (st : Store) (name : String) (ipv4 ipv6 : IP) :
    ((∀ rec ∈ st, rec.isMatch name ipv4 ipv6 = false) → DeleteRecord st name ipv4 ipv6 = st)
    ∧ ((∃ rec ∈ st, rec.isMatch name ipv4 ipv6 = true) →
        ∃ rec, rec ∈ st ∧ rec.name = lowerName name ∧ rec.ipv4 = ipv4 ∧ rec.ipv6 = ipv6
          ∧ st.Perm (rec :: DeleteRecord st name ipv4 ipv6)
          ∧ (DeleteRecord st name ipv4 ipv6).length + 1 = st.length)
    ∧ List.Sublist (DeleteRecord st name ipv4 ipv6) st
    ∧ (∀ rec ∈ st, rec.isMatch name ipv4 ipv6 = false →
        rec ∈ DeleteRecord st name ipv4 ipv6
        ∧ ∀ q : String, rec.name = lowerName q →
            (∀ t, (Resolve (DeleteRecord st name ipv4 ipv6) q t).2 = true)
            ∧ (rec.ipv4 ≠ [] →
                rec.ipv4 ∈ (Resolve (DeleteRecord st name ipv4 ipv6) q recordType.A).1)
            ∧ (rec.ipv6 ≠ [] →
                rec.ipv6 ∈ (Resolve (DeleteRecord st name ipv4 ipv6) q recordType.AAAA).1)) := by
  refine ⟨DeleteRecord_of_no_match st name ipv4 ipv6, ?_, DeleteRecord_sublist st name ipv4 ipv6,
    ?_⟩
  · intro h
    obtain ⟨rec, hrec, hm, hperm⟩ := DeleteRecord_perm st name ipv4 ipv6 h
    have hm' : rec.name = lowerName name ∧ rec.ipv4 = ipv4 ∧ rec.ipv6 = ipv6 := by
      simpa [svcRecord.isMatch] using hm
    refine ⟨rec, hrec, hm'.1, hm'.2.1, hm'.2.2, hperm, ?_⟩
    have := hperm.length_eq
    simp only [List.length_cons] at this
    omega
  · intro rec hrec hm
    have hmem := mem_DeleteRecord_of_no_match st name ipv4 ipv6 rec hrec hm
    refine ⟨hmem, ?_⟩
    intro q hq
    refine ⟨fun t => (Resolve_found_iff _ q t).2 ⟨rec, hmem, hq⟩, ?_, ?_⟩
    · intro hip
      exact (mem_Resolve_A _ q rec.ipv4).2 ⟨rec, hmem, hq, rfl, hip⟩
    · intro hip
      exact (mem_Resolve_AAAA _ q rec.ipv6).2 ⟨rec, hmem, hq, rfl, hip⟩

/-- Witness of C21: the record of the test deleted from a store that also holds the IPv6
record; deleting an address that is not there changes nothing. -/
theorem DeleteRecord_frame_witness :
    DeleteRecord (testStore ++ v6Store) "NAME1" [192, 168, 0, 1] [] = v6Store
    ∧ DeleteRecord (testStore ++ v6Store) "name1" [10, 0, 0, 1] [] = testStore ++ v6Store
    ∧ (Resolve (DeleteRecord (testStore ++ v6Store) "NAME1" [192, 168, 0, 1] []) "name6"
        recordType.AAAA).2 = true :=
  ⟨by decide,
   (DeleteRecord_frame (testStore ++ v6Store) "name1" [10, 0, 0, 1] []).1 (by decide),
   ((DeleteRecord_frame (testStore ++ v6Store) "NAME1" [192, 168, 0, 1] []).2.2.2
      { name := "name6", serviceName := "", serviceID := "svc6", ipv4 := [],
        ipv6 := [253, 0, 0, 0, 0, 0, 0, 0, 0, 0, 0, 0, 0, 0, 0, 1], isAnycast := false,
        taskName := "test" } (by decide) (by decide)).2 "name6" (by decide) |>.1 recordType.AAAA⟩

end libnetwork

namespace server

/-- C22: `handlerWithGlobalMiddlewares` wraps the handler with the middlewares of the
server in list order, the first of the list innermost and the last outermost: for the list
`[m1, m2, m3]` the result is `m3.WrapHandler (m2.WrapHandler (m1.WrapHandler handler))`,
and in general it is the middlewares applied from the last to the first of the list around
the handler, one more middleware at the end of the list wrapping the result for the list
before it. The debug-request middleware is put around all of this exactly when the log
level is Debug. With no middleware and another level the handler is returned unchanged. -/
theorem handlerWithGlobalMiddlewares_order {APIFunc : Type} (ms : List (Middleware APIFunc))
    (m m1 m2 m3 : Middleware APIFunc) (level : Level) (dbg : APIFunc → APIFunc)
    (handler : APIFunc) :
    (level ≠ Level.DebugLevel →
      (Server.mk ms).handlerWithGlobalMiddlewares level dbg handler
        = ms.reverse.foldr (fun mw h => mw.WrapHandler h) handler)
    ∧ (level ≠ Level.DebugLevel →
      (Server.mk (ms ++ [m])).handlerWithGlobalMiddlewares level dbg handler
        = m.WrapHandler ((Server.mk ms).handlerWithGlobalMiddlewares level dbg handler))
    ∧ (level ≠ Level.DebugLevel →
      (Server.mk [m1, m2, m3]).handlerWithGlobalMiddlewares level dbg handler
        = m3.WrapHandler (m2.WrapHandler (m1.WrapHandler handler)))
    ∧ (Server.mk ms).handlerWithGlobalMiddlewares Level.DebugLevel dbg handler
        = dbg ((Server.mk ms).handlerWithGlobalMiddlewares Level.InfoLevel dbg handler)
    ∧ (level ≠ Level.DebugLevel →
      (Server.mk ms).handlerWithGlobalMiddlewares level dbg handler
        = (Server.mk ms).handlerWithGlobalMiddlewares Level.InfoLevel dbg handler)
    ∧ (level ≠ Level.DebugLevel →
      (Server.mk ([] : List (Middleware APIFunc))).handlerWithGlobalMiddlewares level dbg handler
        = handler) := by
  have hfold : ∀ l : List (Middleware APIFunc),
      l.foldl (fun next mw => mw.WrapHandler next) handler
        = l.reverse.foldr (fun mw h => mw.WrapHandler h) handler := by
    intro l
    rw [List.foldr_reverse]
  refine ⟨?_, ?_, ?_, ?_, ?_, ?_⟩
  · intro h
    simp only [Server.handlerWithGlobalMiddlewares, h, if_false]
    exact hfold ms
  · intro h
    simp [Server.handlerWithGlobalMiddlewares, h, List.foldl_append]
  · intro h
    simp [Server.handlerWithGlobalMiddlewares, h]
  · simp [Server.handlerWithGlobalMiddlewares]
  · intro h
    simp [Server.handlerWithGlobalMiddlewares, h]
  · intro h
    simp [Server.handlerWithGlobalMiddlewares, h]

/-- Witness of C22 on handlers described by their wrappers: with the middlewares
`[named "m1", named "m2"]` the handler `["handler"]` comes back as m2 around m1 around
the handler, with the debug wrapper outermost at level Debug only. -/
theorem handlerWithGlobalMiddlewares_order_witness :
    Level.TraceLevel ≠ Level.DebugLevel
    ∧ (Server.mk [named "m1", named "m2"]).handlerWithGlobalMiddlewares Level.TraceLevel
        (fun next => "debug" :: next) ["handler"] = ["m2", "m1", "handler"]
    ∧ (Server.mk [named "m1", named "m2"]).handlerWithGlobalMiddlewares Level.DebugLevel
        (fun next => "debug" :: next) ["handler"] = ["debug", "m2", "m1", "handler"] :=
  ⟨by decide,
   ((handlerWithGlobalMiddlewares_order [named "m1"] (named "m2") (named "m1") (named "m1")
      (named "m1") Level.TraceLevel (fun next => "debug" :: next) ["handler"]).2.1
      (by decide)).trans (by decide),
   by decide⟩

end server

namespace daemon

/-- C23, as stated, fails on the daemon `TestGetContainer` builds: the full ID of `c1` is
also the reserved name of `c4`, a different container, so no lookup whatever can return,
for every argument, both the container with that full ID and the container with that
reserved name. Of the two orders of the exact matches, one returns `c1` for that argument,
not the container of that name, and the other returns `c4`, not the container of that
ID. -/
theorem GetContainer_name_is_full_ID_counterexample :
    c4.Name = c1.ID
    ∧ testDaemon.containers.get? c1.ID = some c1
    ∧ testDaemon.names.get? c4.Name = some c4.ID
    ∧ testDaemon.containers.get? c4.ID = some c4
    ∧ c1 ≠ c4
    ∧ (¬ ∃ get : String → Option Container × Option GoError,
        (∀ c ∈ testContainers, get c.ID = (some c, none))
        ∧ (∀ c ∈ testContainers, get c.Name = (some c, none)))
    ∧ testDaemon.GetContainer c4.Name = (some c1, none)
    ∧ testDaemon.GetContainerNameFirst c1.ID = (some c4, none) := by
  refine ⟨by decide, by decide, by decide, by decide, by decide, ?_, by decide, by decide⟩
  rintro ⟨get, hID, hName⟩
  have h1 := hID c1 (by decide)
  have h4 := hName c4 (by decide)
  have hc : c4.Name = c1.ID := by decide
  rw [hc, h1] at h4
  have : c1 = c4 := by simpa using h4
  exact absurd this (by decide)

/-- C23, amended: `GetContainer` resolves by exact match before the beginning of an ID,
in whichever order the two exact matches are tried. An argument that is the full ID of a
container, and not the reserved name of another, returns that container. An argument that
is the reserved name of a container, and not the full ID of another, returns the container
with that name, also when the argument is a beginning of its own or of other IDs. An
argument that is neither, and with which exactly one ID begins, returns the container with
that ID. On the daemon of the test the five lookups of the test return the containers the
test expects: `"3cdbd1aa"`, with which the IDs of `c2` and `c3` begin, is `c3` by name, and
`"d22d69a2b896"`, with which the ID of `c5` begins, is `c5` by name. -/
theorem GetContainer_resolution (d : Daemon) (arg id : String) (c c' : Container) :
    (d.containers.get? arg = some c → (d.GetByName arg = none ∨ d.GetByName arg = some c) →
        d.GetContainer arg = (some c, none) ∧ d.GetContainerNameFirst arg = (some c, none))
    ∧ ((d.containers.get? arg = none ∨ d.containers.get? arg = some c) →
        d.names.get? arg = some id → d.containers.get? id = some c →
        d.GetContainer arg = (some c, none) ∧ d.GetContainerNameFirst arg = (some c, none))
    ∧ (d.containers.get? arg = none → d.GetByName arg = none → d.byIDStart arg = [c'] →
        d.containers.get? c'.ID = some c →
        d.GetContainer arg = (some c, none) ∧ d.GetContainerNameFirst arg = (some c, none))
    ∧ TestGetContainerFinds testDaemon.GetContainer = true
    ∧ TestGetContainerFinds testDaemon.GetContainerNameFirst = true
    ∧ testDaemon.byIDStart "3cdbd1aa" = [c2, c3]
    ∧ testDaemon.GetContainer "3cdbd1aa" = (some c3, none)
    ∧ testDaemon.GetContainerNameFirst "3cdbd1aa" = (some c3, none)
    ∧ testDaemon.byIDStart "d22d69a2b896" = [c5]
    ∧ testDaemon.GetContainer "d22d69a2b896" = (some c5, none)
    ∧ testDaemon.GetContainerNameFirst "d22d69a2b896" = (some c5, none) := by
  refine ⟨?_, ?_, ?_, by decide, by decide, by decide, by decide, by decide, by decide,
    by decide, by decide⟩
  · intro h hby
    refine ⟨by simp [Daemon.GetContainer, h], ?_⟩
    rcases hby with hby | hby
    · simp [Daemon.GetContainerNameFirst, hby, h]
    · simp [Daemon.GetContainerNameFirst, hby]
  · intro h hname hc
    have hby : d.GetByName arg = some c := by simp [Daemon.GetByName, hname, hc]
    refine ⟨?_, by simp [Daemon.GetContainerNameFirst, hby]⟩
    rcases h with h | h
    · simp [Daemon.GetContainer, h, hby]
    · simp [Daemon.GetContainer, h]
  · intro h hby hpre hc
    exact ⟨by simp [Daemon.GetContainer, h, hby, hpre, hc],
      by simp [Daemon.GetContainerNameFirst, h, hby, hpre, hc]⟩

/-- Witness of amended C23 on the daemon of the test: `"drunk_hawking"` is no full ID and
is the reserved name of `c2`; the full ID of `c2` is no reserved name. -/
theorem GetContainer_resolution_witness :
    testDaemon.containers.get? "drunk_hawking" = none
    ∧ testDaemon.names.get? "drunk_hawking" = some c2.ID
    ∧ testDaemon.containers.get? c2.ID = some c2
    ∧ testDaemon.GetByName c2.ID = none
    ∧ (testDaemon.GetContainer "drunk_hawking" = (some c2, none)
      ∧ testDaemon.GetContainerNameFirst "drunk_hawking" = (some c2, none))
    ∧ (testDaemon.GetContainer c2.ID = (some c2, none)
      ∧ testDaemon.GetContainerNameFirst c2.ID = (some c2, none)) :=
  ⟨by decide, by decide, by decide, by decide,
   (GetContainer_resolution testDaemon "drunk_hawking" c2.ID c2 c2).2.1
      (Or.inl (by decide)) (by decide) (by decide),
   (GetContainer_resolution testDaemon c2.ID c2.ID c2 c2).1 (by decide)
      (Or.inl (by decide))⟩

/-- C24: for an argument that is neither a full ID nor a reserved name, and with which
several IDs begin or none does, `GetContainer` returns no container and an error. On the
daemon of the test this is so for `"3cdbd1"`, with which two IDs begin, and for
`"nothing"`, with which none does. -/
theorem GetContainer_errors (d : Daemon) (arg : String)
    (hid : d.containers.get? arg = none) (hname : d.names.get? arg = none)
    (hpre : (d.byIDStart arg).length ≠ 1) :
    (d.GetContainer arg).1 = none
    ∧ (d.GetContainer arg).2 ≠ none
    ∧ TestGetContainerErrors testDaemon.GetContainer = true
    ∧ (testDaemon.byIDStart "3cdbd1").length = 2
    ∧ (testDaemon.byIDStart "nothing").length = 0 := by
  have hby : d.GetByName arg = none := by simp [Daemon.GetByName, hname]
  refine ⟨?_, ?_, by decide, by decide, by decide⟩
  · cases hl : d.byIDStart arg with
    | nil => simp [Daemon.GetContainer, hid, hby, hl]
    | cons a rest =>
      cases rest with
      | nil => simp [hl] at hpre
      | cons b rest' => simp [Daemon.GetContainer, hid, hby, hl]
  · cases hl : d.byIDStart arg with
    | nil => simp [Daemon.GetContainer, hid, hby, hl]
    | cons a rest =>
      cases rest with
      | nil => simp [hl] at hpre
      | cons b rest' => simp [Daemon.GetContainer, hid, hby, hl]

/-- Witness of C24: the argument `"3cdbd1"` on the daemon of the test. -/
theorem GetContainer_errors_witness :
    testDaemon.containers.get? "3cdbd1" = none
    ∧ testDaemon.names.get? "3cdbd1" = none
    ∧ (testDaemon.byIDStart "3cdbd1").length ≠ 1
    ∧ (testDaemon.GetContainer "3cdbd1").1 = none
    ∧ (testDaemon.GetContainer "3cdbd1").2 ≠ none :=
  ⟨by decide, by decide, by decide,
   (GetContainer_errors testDaemon "3cdbd1" (by decide) (by decide) (by decide)).1,
   (GetContainer_errors testDaemon "3cdbd1" (by decide) (by decide) (by decide)).2.1⟩

end daemon

namespace images

/-- C30: `TagImage` calls `AddTag`, then `SetLastUpdated`, then logs, and stops at the
first error. When `AddTag` fails, its error is returned and no other call is made. When
`AddTag` succeeds and `SetLastUpdated` fails, that error is returned, no event is logged,
and the state is the one the two calls left, so the tag added stays added. When both
succeed, nil is returned after exactly one event is logged: the tag event for the image
and the familiar name of the reference. The result is nil exactly when both calls
succeed, which is exactly when an event is logged. -/
theorem TagImage_ordered {σ : Type} (i : ImageService σ) (w : σ) (imageID : String)
    (newTag : Named) :
    (∀ err, (i.AddTag w newTag imageID true).1 = some err →
        i.TagImage w imageID newTag
          = (some err, (i.AddTag w newTag imageID true).2, [call.AddTag newTag imageID true]))
    ∧ (∀ err, (i.AddTag w newTag imageID true).1 = none →
        (i.SetLastUpdated (i.AddTag w newTag imageID true).2 imageID).1 = some err →
        i.TagImage w imageID newTag
          = (some err, (i.SetLastUpdated (i.AddTag w newTag imageID true).2 imageID).2,
             [call.AddTag newTag imageID true, call.SetLastUpdated imageID]))
    ∧ ((i.AddTag w newTag imageID true).1 = none →
        (i.SetLastUpdated (i.AddTag w newTag imageID true).2 imageID).1 = none →
        i.TagImage w imageID newTag
          = (none,
             i.LogImageEvent (i.SetLastUpdated (i.AddTag w newTag imageID true).2 imageID).2
               imageID (FamiliarString newTag) ActionTag,
             [call.AddTag newTag imageID true, call.SetLastUpdated imageID,
              call.LogImageEvent imageID (FamiliarString newTag) ActionTag]))
    ∧ ((i.TagImage w imageID newTag).1 = none ↔
        ((i.AddTag w newTag imageID true).1 = none
          ∧ (i.SetLastUpdated (i.AddTag w newTag imageID true).2 imageID).1 = none))
    ∧ ((i.TagImage w imageID newTag).1 = none ↔
        (i.TagImage w imageID newTag).2.2.filter call.isEvent
          = [call.LogImageEvent imageID (FamiliarString newTag) ActionTag])
    ∧ ((i.TagImage w imageID newTag).1 ≠ none →
        (i.TagImage w imageID newTag).2.2.filter call.isEvent = []) := by
  rcases h1 : i.AddTag w newTag imageID true with ⟨e1, w1⟩
  cases e1 with
  | some err1 =>
    have hres : i.TagImage w imageID newTag
        = (some err1, w1, [call.AddTag newTag imageID true]) := by
      simp [ImageService.TagImage, h1]
    refine ⟨?_, ?_, ?_, ?_, ?_, ?_⟩
    · intro err he
      have : err1 = err := by simpa using he
      subst this
      exact hres
    · intro err he
      simp at he
    · intro he
      simp at he
    · simp [hres]
    · simp [hres, call.isEvent]
    · intro _
      simp [hres, call.isEvent]
  | none =>
    rcases h2 : i.SetLastUpdated w1 imageID with ⟨e2, w2⟩
    cases e2 with
    | some err2 =>
      have hres : i.TagImage w imageID newTag
          = (some err2, w2, [call.AddTag newTag imageID true, call.SetLastUpdated imageID]) := by
        simp [ImageService.TagImage, h1, h2]
      refine ⟨?_, ?_, ?_, ?_, ?_, ?_⟩
      · intro err he
        simp at he
      · intro err _ he
        have : err2 = err := by simpa [h2] using he
        subst this
        simpa [h2] using hres
      · intro _ he
        simp [h2] at he
      · simp [hres, h2]
      · simp [hres, call.isEvent]
      · intro _
        simp [hres, call.isEvent]
    | none =>
      have hres : i.TagImage w imageID newTag
          = (none, i.LogImageEvent w2 imageID (FamiliarString newTag) ActionTag,
             [call.AddTag newTag imageID true, call.SetLastUpdated imageID,
              call.LogImageEvent imageID (FamiliarString newTag) ActionTag]) := by
        simp [ImageService.TagImage, h1, h2]
      refine ⟨?_, ?_, ?_, ?_, ?_, ?_⟩
      · intro err he
        simp at he
      · intro err _ he
        simp [h2] at he
      · intro _ _
        simpa [h2] using hres
      · simp [hres, h2]
      · simp [hres, call.isEvent]
      · intro hne
        simp [hres] at hne

/-- Witness of C30 on the sample stores: a failing `AddTag` leaves the state untouched; a
failing `SetLastUpdated` leaves the tag added and logs nothing; with both succeeding one tag
event is logged. -/
theorem TagImage_ordered_witness :
    (sampleService (some (errors.New "conflict")) none).TagImage
        { tags := [], updated := [], events := [] } "sha256:abc"
        { name := "docker.io/library/busybox:latest", familiarString := "busybox:latest" }
      = (some (errors.New "conflict"), { tags := [], updated := [], events := [] },
         [call.AddTag { name := "docker.io/library/busybox:latest",
                        familiarString := "busybox:latest" } "sha256:abc" true])
    ∧ (sampleService none (some (errors.New "no such image"))).TagImage
        { tags := [], updated := [], events := [] } "sha256:abc"
        { name := "docker.io/library/busybox:latest", familiarString := "busybox:latest" }
      = (some (errors.New "no such image"),
         { tags := [("docker.io/library/busybox:latest", "sha256:abc")], updated := [],
           events := [] },
         [call.AddTag { name := "docker.io/library/busybox:latest",
                        familiarString := "busybox:latest" } "sha256:abc" true,
          call.SetLastUpdated "sha256:abc"])
    ∧ ((sampleService none none).TagImage
        { tags := [], updated := [], events := [] } "sha256:abc"
        { name := "docker.io/library/busybox:latest",
          familiarString := "busybox:latest" }).2.1.events
      = [("sha256:abc", "busybox:latest", "tag")] :=
  ⟨(TagImage_ordered (sampleService (some (errors.New "conflict")) none)
      { tags := [], updated := [], events := [] } "sha256:abc"
      { name := "docker.io/library/busybox:latest", familiarString := "busybox:latest" }).1
      (errors.New "conflict") rfl,
   (TagImage_ordered (sampleService none (some (errors.New "no such image")))
      { tags := [], updated := [], events := [] } "sha256:abc"
      { name := "docker.io/library/busybox:latest", familiarString := "busybox:latest" }).2.1
      (errors.New "no such image") rfl rfl,
   by decide⟩

end images
